import Mathlib

/-!
Verification of the Simple_MCP_Demo repository: a JSON-RPC-shaped tool
server (`server/mcp_server.py`, `server/tools.py`) and a client session with a
simulated in-process transport (`client/mcp_client.py`).

The development embeds, from the source:
  * a JSON value type together with models of `json.dumps(·, indent=2)`
    (`dumps`) and `json.loads` (`loads`), with a proved round-trip theorem;
  * the tool handlers of `tools.py` (calculator over exact rationals, mock
    weather, file operations over an abstract filesystem, system tools);
  * the server registry and dispatcher of `mcp_server.py`;
  * the client session state machine of `mcp_client.py` (request ids,
    connect / discover_tools / call_tool, simulated server responses).

Nondeterministic inputs of the Python code (the wall clock used for
timestamps, the filesystem, `os` data) are passed explicitly through an
`Env` value.
-/

/-- JSON values.  Numbers are finite decimals `m / 10 ^ e`, which is the wire
grammar of JSON number literals (every Python float serialized by `json` is a
finite decimal). -/
inductive Json where
  | null : Json
  | bool : Bool → Json
  | num : Int → Nat → Json
  | str : String → Json
  | arr : List Json → Json
  | obj : List (String × Json) → Json

namespace Json

/-- `dict.get(k)`: first binding of key `k` in an object, `none` otherwise. -/
def lookup : Json → String → Option Json
  | .obj kvs, k => (kvs.find? (fun kv => kv.1 == k)).map (·.2)
  | _, _ => none

/-- `dict.get(k, d)`: lookup with a default. -/
def getD (j : Json) (k : String) (d : Json) : Json := (j.lookup k).getD d

/-- Coerce a JSON value to the list of an array, with `[]` for non-arrays. -/
def asArr : Json → List Json
  | .arr xs => xs
  | _ => []

end Json

/-! ## Serialization: a model of `json.dumps(v, indent=2)` -/

/-- Decimal digit character. -/
def digitChar (d : Nat) : Char := Char.ofNat (48 + d)

/-- Lowercase hexadecimal digit character. -/
def hexDigitChar (d : Nat) : Char :=
  if d < 10 then Char.ofNat (48 + d) else Char.ofNat (87 + d)

/-- Four-hex-digit rendering of `n < 0x10000`, as in `\uXXXX` escapes. -/
def hex4 (n : Nat) : List Char :=
  [hexDigitChar (n / 4096 % 16), hexDigitChar (n / 256 % 16),
   hexDigitChar (n / 16 % 16), hexDigitChar (n % 16)]

/-- Decimal digits of `n`, accumulator form. -/
def natCharsAux : Nat → Nat → List Char → List Char
  | 0, _, acc => acc
  | fuel + 1, n, acc =>
    if n < 10 then digitChar n :: acc
    else natCharsAux fuel (n / 10) (digitChar (n % 10) :: acc)

/-- Decimal digits of `n`, most significant first, `"0"` for zero. -/
def natChars (n : Nat) : List Char := natCharsAux (n + 1) n []

/-- Exactly `e` decimal digits holding `f % 10 ^ e`, zero padded on the
left: the fractional part of a decimal literal. -/
def fracChars : Nat → Nat → List Char
  | 0, _ => []
  | e + 1, f => fracChars e (f / 10) ++ [digitChar (f % 10)]

/-- Digits of an integer with an optional leading minus sign. -/
def intChars (m : Int) : List Char :=
  if m < 0 then '-' :: natChars m.natAbs else natChars m.natAbs

/-- Rendering of the decimal `m / 10 ^ e`: an integer literal when `e = 0`,
otherwise a literal with exactly `e` digits after the decimal point. -/
def numChars (m : Int) (e : Nat) : List Char :=
  if e = 0 then intChars m
  else
    (if m < 0 then ['-'] else []) ++
      (natChars (m.natAbs / 10 ^ e) ++ ('.' :: fracChars e (m.natAbs % 10 ^ e)))

/-- The escape sequence `json.dumps` (with its default `ensure_ascii=True`)
emits for one character: two-character short escapes for the JSON specials,
`\uXXXX` for other control and non-ASCII characters (a surrogate pair for
astral characters), and the character itself otherwise. -/
def escapeChar (c : Char) : List Char :=
  if c = '"' then ['\\', '"']
  else if c = '\\' then ['\\', '\\']
  else if c = '\n' then ['\\', 'n']
  else if c = '\r' then ['\\', 'r']
  else if c = '\t' then ['\\', 't']
  else if c = '\x08' then ['\\', 'b']
  else if c = '\x0c' then ['\\', 'f']
  else if c.toNat < 0x20 then '\\' :: 'u' :: hex4 c.toNat
  else if c.toNat < 0x7f then [c]
  else if c.toNat < 0x10000 then '\\' :: 'u' :: hex4 c.toNat
  else
    '\\' :: 'u' :: (hex4 (0xd800 + (c.toNat - 0x10000) / 0x400) ++
      ('\\' :: 'u' :: hex4 (0xdc00 + (c.toNat - 0x10000) % 0x400)))

/-- Escaped rendering of a string body. -/
def escChars : List Char → List Char
  | [] => []
  | c :: cs => escapeChar c ++ escChars cs

/-- `n` spaces, for indentation. -/
def spacesC (n : Nat) : List Char := List.replicate n ' '

mutual
/-- Character stream of `json.dumps(v, indent=2)` when the value starts at
indentation `ind`: members and elements one per line, two extra spaces per
nesting level, `": "` after keys, empty containers inline. -/
def printVal (ind : Nat) : Json → List Char
  | .null => ['n', 'u', 'l', 'l']
  | .bool b => if b then ['t', 'r', 'u', 'e'] else ['f', 'a', 'l', 's', 'e']
  | .num m e => numChars m e
  | .str s => '"' :: (escChars s.data ++ ['"'])
  | .arr [] => ['[', ']']
  | .arr (x :: xs) =>
      '[' :: '\n' :: (spacesC (ind + 2) ++ (printVal (ind + 2) x ++
        (printListRest (ind + 2) xs ++ ('\n' :: (spacesC ind ++ [']'])))))
  | .obj [] => ['{', '}']
  | .obj (kv :: kvs) =>
      '{' :: '\n' :: (spacesC (ind + 2) ++ (printMember (ind + 2) kv ++
        (printMembersRest (ind + 2) kvs ++ ('\n' :: (spacesC ind ++ ['}'])))))
/-- Remaining array elements, each preceded by `",\n"` and indentation. -/
def printListRest (ind : Nat) : List Json → List Char
  | [] => []
  | x :: xs => ',' :: '\n' :: (spacesC ind ++ (printVal ind x ++ printListRest ind xs))
/-- One object member: quoted key, `": "`, value. -/
def printMember (ind : Nat) : String × Json → List Char
  | (k, v) => '"' :: (escChars k.data ++ ('"' :: ':' :: ' ' :: printVal ind v))
/-- Remaining object members, each preceded by `",\n"` and indentation. -/
def printMembersRest (ind : Nat) : List (String × Json) → List Char
  | [] => []
  | kv :: kvs => ',' :: '\n' :: (spacesC ind ++ (printMember ind kv ++ printMembersRest ind kvs))
end

/-- `json.dumps(v, indent=2)`. -/
def dumps (v : Json) : String := String.mk (printVal 0 v)

example : dumps (.arr []) = String.mk ['[', ']'] := rfl
example : numChars (-105) 2 = ['-', '1', '.', '0', '5'] := rfl
example : numChars 22 0 = ['2', '2'] := rfl
example : numChars (-5) 2 = ['-', '0', '.', '0', '5'] := rfl

/-! ## Parsing: a model of `json.loads` -/

/-- JSON insignificant whitespace. -/
def isWsChar (c : Char) : Bool := c = ' ' || c = '\t' || c = '\n' || c = '\r'

/-- Drop leading whitespace. -/
def skipWs : List Char → List Char
  | [] => []
  | c :: t => if isWsChar c then skipWs t else c :: t

/-- Numeric value of a big-endian digit run. -/
def charsVal (cs : List Char) : Nat :=
  cs.foldl (fun a c => a * 10 + (c.toNat - 48)) 0

/-- Numeric value of one hexadecimal digit character. -/
def hexVal (c : Char) : Nat :=
  if c.toNat ≤ 57 then c.toNat - 48
  else if c.toNat ≤ 70 then c.toNat - 55
  else c.toNat - 87

/-- Hexadecimal digit test (both cases). -/
def isHexChar (c : Char) : Bool :=
  ('0' ≤ c && c ≤ '9') || ('a' ≤ c && c ≤ 'f') || ('A' ≤ c && c ≤ 'F')

/-- Read exactly four hexadecimal digits. -/
def parseHex4 : List Char → Option (Nat × List Char)
  | a :: b :: c :: d :: r =>
    if isHexChar a && isHexChar b && isHexChar c && isHexChar d then
      some (hexVal a * 4096 + hexVal b * 256 + hexVal c * 16 + hexVal d, r)
    else none
  | _ => none

/-- The unicode scalar `n` as a `Char`, when valid. -/
def charOfNat? (n : Nat) : Option Char :=
  if h : n.isValidChar then some (Char.ofNatAux n h) else none

/-- Decode a `\uXXXX` scalar `n` with remaining input `r2`: a scalar below
the surrogate range, a surrogate pair, or a scalar above it.  Lone surrogates
are rejected (a Lean `Char` is a unicode scalar value). -/
def parseEscapeScalar (n : Nat) (r2 : List Char) : Option (Char × List Char) :=
  if n < 0xd800 then (charOfNat? n).map (fun c => (c, r2))
  else if n < 0xdc00 then
    match r2 with
    | a :: b :: r3 =>
      if a = '\\' && b = 'u' then
        (parseHex4 r3).bind (fun q =>
          if 0xdc00 ≤ q.1 && q.1 < 0xe000 then
            (charOfNat? (0x10000 + (n - 0xd800) * 0x400 + (q.1 - 0xdc00))).map
              (fun c => (c, q.2))
          else none)
      else none
    | _ => none
  else if n < 0xe000 then none
  else (charOfNat? n).map (fun c => (c, r2))

/-- Decode the remainder of one string escape (after the backslash): short
escapes and `\uXXXX`. -/
def parseEscape : List Char → Option (Char × List Char)
  | [] => none
  | c :: r =>
    if c = '"' then some ('"', r)
    else if c = '\\' then some ('\\', r)
    else if c = '/' then some ('/', r)
    else if c = 'b' then some ('\x08', r)
    else if c = 'f' then some ('\x0c', r)
    else if c = 'n' then some ('\n', r)
    else if c = 'r' then some ('\r', r)
    else if c = 't' then some ('\t', r)
    else if c = 'u' then (parseHex4 r).bind (fun p => parseEscapeScalar p.1 p.2)
    else none

/-- Decode a string body up to its closing quote; `fuel` bounds the number of
decoded characters (the caller passes the input length, which always
suffices).  Raw control characters are rejected, as by `json.loads`. -/
def parseStrBody : Nat → List Char → Option (List Char × List Char)
  | 0, _ => none
  | _ + 1, [] => none
  | fuel + 1, c :: t =>
    if c = '"' then some ([], t)
    else if c = '\\' then
      match parseEscape t with
      | none => none
      | some (d, r) => (parseStrBody fuel r).map (fun p => (d :: p.1, p.2))
    else if c.toNat < 0x20 then none
    else (parseStrBody fuel t).map (fun p => (c :: p.1, p.2))

/-- Maximal-munch split of a leading run of decimal digits. -/
def takeDigits : List Char → List Char × List Char
  | [] => ([], [])
  | c :: t =>
    if c.isDigit then
      let p := takeDigits t
      (c :: p.1, p.2)
    else ([], c :: t)

/-- Optional exponent suffix: scale the decimal `m / 10 ^ e` accordingly. -/
def parseExpDigits (m e : Nat) (negE : Bool) (cs : List Char) :
    Option ((Int × Nat) × List Char) :=
  let p := takeDigits cs
  if p.1.isEmpty then none
  else
    let k := charsVal p.1
    if negE then some (((m : Int), e + k), p.2)
    else if k ≤ e then some (((m : Int), e - k), p.2)
    else some (((m * 10 ^ (k - e) : Nat), 0), p.2)

/-- Exponent part after `e`/`E`: optional sign then digits. -/
def parseExpTail (m e : Nat) : List Char → Option ((Int × Nat) × List Char)
  | [] => parseExpDigits m e false []
  | c :: t =>
    if c = '+' then parseExpDigits m e false t
    else if c = '-' then parseExpDigits m e true t
    else parseExpDigits m e false (c :: t)

/-- After the fraction (or integer) digits: optional exponent. -/
def parseExpHead (m e : Nat) : List Char → Option ((Int × Nat) × List Char)
  | [] => some (((m : Int), e), [])
  | c :: t =>
    if c = 'e' then parseExpTail m e t
    else if c = 'E' then parseExpTail m e t
    else some (((m : Int), e), c :: t)

/-- After the integer digits: optional fraction, optional exponent. -/
def parseNumTail (ip : Nat) : List Char → Option ((Int × Nat) × List Char)
  | [] => some (((ip : Int), 0), [])
  | c :: t =>
    if c = '.' then
      let p := takeDigits t
      if p.1.isEmpty then none
      else parseExpHead (ip * 10 ^ p.1.length + charsVal p.1) p.1.length p.2
    else parseExpHead ip 0 (c :: t)

/-- Unsigned decimal literal. -/
def parseNumCore (cs : List Char) : Option ((Int × Nat) × List Char) :=
  let p := takeDigits cs
  if p.1.isEmpty then none else parseNumTail (charsVal p.1) p.2

/-- JSON number literal with optional leading minus. -/
def parseNumber : List Char → Option ((Int × Nat) × List Char)
  | [] => none
  | c :: t =>
    if c = '-' then (parseNumCore t).map (fun p => ((-p.1.1, p.1.2), p.2))
    else parseNumCore (c :: t)

mutual
/-- Recursive-descent JSON value parser; `fuel` bounds the nesting structure
(any fuel at least the printed size of the value suffices). -/
def parseValue : Nat → List Char → Option (Json × List Char)
  | 0, _ => none
  | fuel + 1, cs =>
    match skipWs cs with
    | [] => none
    | c :: r =>
    if c = 'n' then
      match r with
      | 'u' :: 'l' :: 'l' :: r2 => some (.null, r2)
      | _ => none
    else if c = 't' then
      match r with
      | 'r' :: 'u' :: 'e' :: r2 => some (.bool true, r2)
      | _ => none
    else if c = 'f' then
      match r with
      | 'a' :: 'l' :: 's' :: 'e' :: r2 => some (.bool false, r2)
      | _ => none
    else if c = '"' then
      (parseStrBody r.length r).map (fun p => (.str (String.mk p.1), p.2))
    else if c = '[' then
      match skipWs r with
      | [] => none
      | d :: r2 =>
        if d = ']' then some (.arr [], r2)
        else (parseElems fuel (d :: r2)).map (fun p => (.arr p.1, p.2))
    else if c = '{' then
      match skipWs r with
      | [] => none
      | d :: r2 =>
        if d = '}' then some (.obj [], r2)
        else (parseMembers fuel (d :: r2)).map (fun p => (.obj p.1, p.2))
    else (parseNumber (c :: r)).map (fun p => (.num p.1.1 p.1.2, p.2))
/-- One or more comma-separated array elements and the closing bracket. -/
def parseElems : Nat → List Char → Option (List Json × List Char)
  | 0, _ => none
  | fuel + 1, cs =>
    match parseValue fuel cs with
    | none => none
    | some (v, r) =>
      match skipWs r with
      | [] => none
      | d :: r2 =>
        if d = ',' then (parseElems fuel r2).map (fun p => (v :: p.1, p.2))
        else if d = ']' then some ([v], r2)
        else none
/-- One or more comma-separated object members and the closing brace. -/
def parseMembers : Nat → List Char → Option (List (String × Json) × List Char)
  | 0, _ => none
  | fuel + 1, cs =>
    match skipWs cs with
    | [] => none
    | c :: r =>
      if c = '"' then
        match parseStrBody r.length r with
        | none => none
        | some (kcs, r2) =>
          match skipWs r2 with
          | [] => none
          | d :: r3 =>
            if d = ':' then
              match parseValue fuel r3 with
              | none => none
              | some (v, r4) =>
                match skipWs r4 with
                | [] => none
                | d2 :: r5 =>
                  if d2 = ',' then
                    (parseMembers fuel r5).map (fun p => ((String.mk kcs, v) :: p.1, p.2))
                  else if d2 = '}' then some ([(String.mk kcs, v)], r5)
                  else none
            else none
      else none
end

/-- `json.loads(s)`: parse one value and require only whitespace after it. -/
def loads (s : String) : Option Json :=
  match parseValue (s.data.length + 1) s.data with
  | none => none
  | some (v, r) => if (skipWs r).isEmpty then some v else none

example : loads (dumps (.arr [.null, .bool true, .num 25 1])) =
    some (.arr [.null, .bool true, .num 25 1]) := rfl
example : loads (dumps (.obj [("a", .num 1 0), ("b", .str "x\ny")])) =
    some (.obj [("a", .num 1 0), ("b", .str "x\ny")]) := rfl
example : loads (dumps (.str (String.mk [Char.ofNat 0x1F600, 'é']))) =
    some (.str (String.mk [Char.ofNat 0x1F600, 'é'])) := rfl
example : loads (String.mk ['{', '}']) = some (.obj []) := rfl

/-! ## Round-trip lemmas: digits and numbers -/

theorem digitChar_isDigit {d : Nat} (h : d < 10) : (digitChar d).isDigit = true := by
  interval_cases d <;> decide

theorem digitChar_toNat {d : Nat} (h : d < 10) : (digitChar d).toNat = 48 + d := by
  interval_cases d <;> decide

theorem isDigit_toNat {c : Char} (h : c.isDigit = true) :
    48 ≤ c.toNat ∧ c.toNat ≤ 57 := by
  simp [Char.isDigit] at h
  exact h

theorem isDigit_ne_minus {c : Char} (h : c.isDigit = true) : c ≠ '-' := by
  rintro rfl; exact absurd h (by decide)

theorem isDigit_ne_dot {c : Char} (h : c.isDigit = true) : c ≠ '.' := by
  rintro rfl; exact absurd h (by decide)

theorem isDigit_ne_e {c : Char} (h : c.isDigit = true) : c ≠ 'e' := by
  rintro rfl; exact absurd h (by decide)

theorem isDigit_ne_E {c : Char} (h : c.isDigit = true) : c ≠ 'E' := by
  rintro rfl; exact absurd h (by decide)

theorem natCharsAux_acc (fuel : Nat) :
    ∀ n acc, natCharsAux fuel n acc = natCharsAux fuel n [] ++ acc := by
  induction fuel with
  | zero => intro n acc; rfl
  | succ f ih =>
    intro n acc
    by_cases h : n < 10
    · simp [natCharsAux, h]
    · simp only [natCharsAux, if_neg h]
      rw [ih (n / 10) (digitChar (n % 10) :: acc), ih (n / 10) [digitChar (n % 10)]]
      simp

theorem natCharsAux_digits (fuel : Nat) :
    ∀ n, n < fuel → ∀ c ∈ natCharsAux fuel n [], c.isDigit = true := by
  induction fuel with
  | zero => intro n hn; omega
  | succ f ih =>
    intro n hn c hc
    by_cases h : n < 10
    · simp [natCharsAux, h] at hc
      subst hc; exact digitChar_isDigit h
    · simp only [natCharsAux, if_neg h] at hc
      rw [natCharsAux_acc] at hc
      rcases List.mem_append.mp hc with h1 | h2
      · exact ih (n / 10) (by omega) c h1
      · simp at h2; subst h2; exact digitChar_isDigit (by omega)

theorem charsVal_append_one (l : List Char) (c : Char) :
    charsVal (l ++ [c]) = charsVal l * 10 + (c.toNat - 48) := by
  simp [charsVal, List.foldl_append]

theorem charsVal_natCharsAux (fuel : Nat) :
    ∀ n, n < fuel → charsVal (natCharsAux fuel n []) = n := by
  induction fuel with
  | zero => intro n hn; omega
  | succ f ih =>
    intro n hn
    by_cases h : n < 10
    · simp [natCharsAux, h, charsVal, digitChar_toNat h]
    · simp only [natCharsAux, if_neg h]
      rw [natCharsAux_acc, charsVal_append_one, ih (n / 10) (by omega),
        digitChar_toNat (Nat.mod_lt n (by omega))]
      omega

theorem natChars_digits (n : Nat) : ∀ c ∈ natChars n, c.isDigit = true :=
  natCharsAux_digits (n + 1) n (Nat.lt_succ_self n)

theorem charsVal_natChars (n : Nat) : charsVal (natChars n) = n :=
  charsVal_natCharsAux (n + 1) n (Nat.lt_succ_self n)

theorem natChars_cons (n : Nat) :
    ∃ c t, natChars n = c :: t ∧ c.isDigit = true := by
  rcases hn : natChars n with _ | ⟨c, t⟩
  · exfalso
    unfold natChars at hn
    by_cases h : n < 10
    · simp [natCharsAux, h] at hn
    · simp only [natCharsAux, if_neg h] at hn
      rw [natCharsAux_acc] at hn
      simp at hn
  · exact ⟨c, t, rfl, natChars_digits n c (hn ▸ List.mem_cons_self c t)⟩

theorem fracChars_length (e : Nat) : ∀ f, (fracChars e f).length = e := by
  induction e with
  | zero => intro f; rfl
  | succ e ih => intro f; simp [fracChars, ih]

theorem fracChars_digits (e : Nat) : ∀ f c, c ∈ fracChars e f → c.isDigit = true := by
  induction e with
  | zero => intro f c hc; simp [fracChars] at hc
  | succ e ih =>
    intro f c hc
    simp only [fracChars] at hc
    rcases List.mem_append.mp hc with h1 | h2
    · exact ih (f / 10) c h1
    · simp at h2; subst h2; exact digitChar_isDigit (by omega)

theorem charsVal_fracChars (e : Nat) : ∀ f, charsVal (fracChars e f) = f % 10 ^ e := by
  induction e with
  | zero => intro f; simp [fracChars, charsVal]; omega
  | succ e ih =>
    intro f
    simp only [fracChars]
    rw [charsVal_append_one, ih (f / 10), digitChar_toNat (Nat.mod_lt f (by omega))]
    have hp : (10 : Nat) ^ (e + 1) = 10 * 10 ^ e := by ring
    rw [hp, Nat.mod_mul]
    omega

theorem takeDigits_split {l1 l2 : List Char} (h1 : ∀ c ∈ l1, c.isDigit = true)
    (h2 : ∀ c, l2.head? = some c → c.isDigit = false) :
    takeDigits (l1 ++ l2) = (l1, l2) := by
  induction l1 with
  | nil =>
    rcases l2 with _ | ⟨c, t⟩
    · rfl
    · simp [takeDigits, h2 c rfl]
  | cons c t ih =>
    have hd := h1 c (List.mem_cons_self c t)
    simp only [List.cons_append, takeDigits, hd, if_pos, List.append_eq]
    rw [ih (fun x hx => h1 x (List.mem_cons_of_mem c hx))]

/-- The character (if any) following a printed number may not extend the
literal: not a digit, not `.`, not an exponent marker.  The printer only ever
follows a value with `,`, a newline, `]`, `}`, or the end of input. -/
def numOk : List Char → Bool
  | [] => true
  | c :: _ => !(c.isDigit || c == '.' || c == 'e' || c == 'E')

theorem numOk_head {c : Char} {t : List Char} (h : numOk (c :: t) = true) :
    c.isDigit = false ∧ c ≠ '.' ∧ c ≠ 'e' ∧ c ≠ 'E' := by
  simp [numOk] at h
  obtain ⟨⟨⟨h1, h2⟩, h3⟩, h4⟩ := h
  exact ⟨h1, h2, h3, h4⟩

theorem numOk_not_digit {rest : List Char} (h : numOk rest = true) :
    ∀ c, rest.head? = some c → c.isDigit = false := by
  rcases rest with _ | ⟨c, t⟩
  · intro c hc; exact absurd hc (by simp)
  · intro d hd
    simp at hd
    subst hd
    exact (numOk_head h).1

theorem parseNumTail_none {n : Nat} {rest : List Char} (h : numOk rest = true) :
    parseNumTail n rest = some (((n : Int), 0), rest) := by
  rcases rest with _ | ⟨c, t⟩
  · rfl
  · obtain ⟨_, hdot, he, hE⟩ := numOk_head h
    simp [parseNumTail, if_neg hdot, parseExpHead, if_neg he, if_neg hE]

theorem parseNumCore_int (n : Nat) {rest : List Char} (h : numOk rest = true) :
    parseNumCore (natChars n ++ rest) = some (((n : Int), 0), rest) := by
  unfold parseNumCore
  rw [takeDigits_split (natChars_digits n) (numOk_not_digit h)]
  obtain ⟨c, t, hct, _⟩ := natChars_cons n
  rw [hct]
  simp only [List.isEmpty_cons, Bool.false_eq_true, if_neg]
  rw [← hct, charsVal_natChars]
  exact parseNumTail_none h

theorem parseNumCore_frac (n e : Nat) (he : e ≠ 0) {rest : List Char}
    (h : numOk rest = true) :
    parseNumCore (natChars (n / 10 ^ e) ++
      ('.' :: (fracChars e (n % 10 ^ e) ++ rest))) = some (((n : Int), e), rest) := by
  unfold parseNumCore
  rw [takeDigits_split (natChars_digits _) (by intro c hc; simp at hc; subst hc; rfl)]
  obtain ⟨c, t, hct, _⟩ := natChars_cons (n / 10 ^ e)
  rw [hct]
  simp only [List.isEmpty_cons, Bool.false_eq_true, if_neg]
  rw [← hct, charsVal_natChars]
  simp only [parseNumTail, if_pos rfl]
  rw [takeDigits_split (fun c hc => fracChars_digits e (n % 10 ^ e) c hc)
    (numOk_not_digit h)]
  have hne : fracChars e (n % 10 ^ e) ≠ [] := by
    intro hh
    have hl := fracChars_length e (n % 10 ^ e)
    rw [hh] at hl
    simp at hl
    omega
  obtain ⟨d, u, hdu⟩ : ∃ d u, fracChars e (n % 10 ^ e) = d :: u := by
    rcases hfc : fracChars e (n % 10 ^ e) with _ | ⟨d, u⟩
    · exact absurd hfc hne
    · exact ⟨d, u, rfl⟩
  rw [hdu]
  simp only [List.isEmpty_cons, Bool.false_eq_true, if_neg]
  rw [← hdu, fracChars_length, charsVal_fracChars]
  have hval : n / 10 ^ e * 10 ^ e + n % 10 ^ e % 10 ^ e = n := by
    have h2 : n % 10 ^ e % 10 ^ e = n % 10 ^ e :=
      Nat.mod_mod_of_dvd n dvd_rfl
    rw [h2]
    exact Nat.div_add_mod' n (10 ^ e)
  rw [hval]
  rcases rest with _ | ⟨c2, t2⟩
  · rfl
  · obtain ⟨_, _, he2, hE2⟩ := numOk_head h
    simp [parseExpHead, if_neg he2, if_neg hE2]

theorem parseNumber_print (m : Int) (e : Nat) {rest : List Char}
    (h : numOk rest = true) :
    parseNumber (numChars m e ++ rest) = some ((m, e), rest) := by
  by_cases he : e = 0
  · subst he
    rw [numChars, if_pos rfl, intChars]
    by_cases hm : m < 0
    · rw [if_pos hm]
      simp only [List.cons_append, parseNumber, if_pos rfl]
      rw [parseNumCore_int m.natAbs h]
      show some ((-(m.natAbs : Int), 0), rest) = some ((m, 0), rest)
      have hcast : -((m.natAbs : Int)) = m := by omega
      rw [hcast]
    · rw [if_neg hm]
      obtain ⟨c, t, hct, hcd⟩ := natChars_cons m.natAbs
      rw [hct]
      simp only [List.cons_append, parseNumber]
      rw [if_neg (isDigit_ne_minus hcd), ← List.cons_append, ← hct,
        parseNumCore_int m.natAbs h]
      have hcast : ((m.natAbs : Int)) = m := by omega
      rw [hcast]
  · rw [numChars, if_neg he]
    by_cases hm : m < 0
    · rw [if_pos hm]
      simp only [List.append_assoc, List.cons_append, List.singleton_append,
        List.nil_append]
      simp only [parseNumber, if_pos rfl]
      rw [parseNumCore_frac m.natAbs e he h]
      show some ((-(m.natAbs : Int), e), rest) = some ((m, e), rest)
      have hcast : -((m.natAbs : Int)) = m := by omega
      rw [hcast]
    · rw [if_neg hm]
      obtain ⟨c, t, hct, hcd⟩ := natChars_cons (m.natAbs / 10 ^ e)
      simp only [List.append_assoc, List.cons_append, List.nil_append, hct]
      simp only [parseNumber]
      rw [if_neg (isDigit_ne_minus hcd), ← List.cons_append, ← hct,
        parseNumCore_frac m.natAbs e he h]
      have hcast : ((m.natAbs : Int)) = m := by omega
      rw [hcast]

/-! ## Round-trip lemmas: strings -/

theorem char_valid (c : Char) :
    c.toNat < 0xd800 ∨ (0xdfff < c.toNat ∧ c.toNat < 0x110000) := c.valid

theorem charOfNat?_toNat (c : Char) : charOfNat? c.toNat = some c := by
  obtain ⟨⟨⟨⟨n, hlt⟩⟩⟩, hv⟩ := c
  simp only [charOfNat?, Char.toNat]
  rw [dif_pos hv]
  rfl

theorem hexDigitChar_isHex {d : Nat} (h : d < 16) : isHexChar (hexDigitChar d) = true := by
  interval_cases d <;> decide

theorem hexVal_hexDigitChar {d : Nat} (h : d < 16) : hexVal (hexDigitChar d) = d := by
  interval_cases d <;> decide

theorem parseHex4_print {n : Nat} (h : n < 0x10000) (γ : List Char) :
    parseHex4 (hex4 n ++ γ) = some (n, γ) := by
  simp only [hex4, List.cons_append, List.nil_append, parseHex4]
  rw [hexDigitChar_isHex (Nat.mod_lt _ (by omega)),
    hexDigitChar_isHex (Nat.mod_lt _ (by omega)),
    hexDigitChar_isHex (Nat.mod_lt _ (by omega)),
    hexDigitChar_isHex (Nat.mod_lt _ (by omega))]
  simp only [Bool.and_self, if_pos]
  rw [hexVal_hexDigitChar (Nat.mod_lt _ (by omega)),
    hexVal_hexDigitChar (Nat.mod_lt _ (by omega)),
    hexVal_hexDigitChar (Nat.mod_lt _ (by omega)),
    hexVal_hexDigitChar (Nat.mod_lt _ (by omega))]
  congr 1
  congr 1
  omega

theorem parseStrBody_bs (f : Nat) (t : List Char) :
    parseStrBody (f + 1) ('\\' :: t) =
      match parseEscape t with
      | none => none
      | some (d, r) =>
        (parseStrBody f r).map (fun p : List Char × List Char => (d :: p.1, p.2)) := rfl

theorem parseEscape_u (r : List Char) :
    parseEscape ('u' :: r) = (parseHex4 r).bind (fun p => parseEscapeScalar p.1 p.2) := rfl

theorem hexBind {α : Type} {r : List Char} {n : Nat} {γ : List Char}
    (h : parseHex4 r = some (n, γ)) (g : Nat × List Char → Option α) :
    (parseHex4 r).bind g = g (n, γ) := by
  rw [h]
  rfl

theorem escScalarPair {n : Nat} (hd8 : ¬n < 0xd800) (hdc : n < 0xdc00) (r3 : List Char) :
    parseEscapeScalar n ('\\' :: 'u' :: r3) =
      (parseHex4 r3).bind (fun q =>
        if 0xdc00 ≤ q.1 && q.1 < 0xe000 then
          (charOfNat? (0x10000 + (n - 0xd800) * 0x400 + (q.1 - 0xdc00))).map
            (fun d => (d, q.2))
        else none) := by
  unfold parseEscapeScalar
  rw [if_neg hd8, if_pos hdc]
  rfl

theorem parseStrBody_esc_u (f : Nat) (c : Char) (γ : List Char)
    (h : c.toNat < 0xd800 ∨ (0xdfff < c.toNat ∧ c.toNat < 0x10000)) :
    parseStrBody (f + 1) ('\\' :: 'u' :: (hex4 c.toNat ++ γ)) =
      (parseStrBody f γ).map (fun p => (c :: p.1, p.2)) := by
  rw [parseStrBody_bs]
  have hesc : parseEscape ('u' :: (hex4 c.toNat ++ γ)) = some (c, γ) := by
    rw [parseEscape_u, hexBind (parseHex4_print (by omega) γ)]
    show parseEscapeScalar c.toNat γ = some (c, γ)
    unfold parseEscapeScalar
    rcases h with hlo | ⟨hgt, _⟩
    · rw [if_pos hlo, charOfNat?_toNat]
      rfl
    · rw [if_neg (by omega : ¬c.toNat < 0xd800),
        if_neg (by omega : ¬c.toNat < 0xdc00),
        if_neg (by omega : ¬c.toNat < 0xe000), charOfNat?_toNat]
      rfl
  rw [hesc]

theorem parseStrBody_esc_pair (f : Nat) (c : Char) (γ : List Char)
    (h10 : ¬c.toNat < 0x10000) (hlt : c.toNat < 0x110000) :
    parseStrBody (f + 1) ('\\' :: 'u' :: (hex4 (0xd800 + (c.toNat - 0x10000) / 0x400) ++
      ('\\' :: 'u' :: (hex4 (0xdc00 + (c.toNat - 0x10000) % 0x400) ++ γ)))) =
      (parseStrBody f γ).map (fun p => (c :: p.1, p.2)) := by
  rw [parseStrBody_bs]
  have hesc : parseEscape ('u' :: (hex4 (0xd800 + (c.toNat - 0x10000) / 0x400) ++
      ('\\' :: 'u' :: (hex4 (0xdc00 + (c.toNat - 0x10000) % 0x400) ++ γ)))) =
      some (c, γ) := by
    rw [parseEscape_u, hexBind (parseHex4_print (by omega) _)]
    show parseEscapeScalar (0xd800 + (c.toNat - 0x10000) / 0x400)
      ('\\' :: 'u' :: (hex4 (0xdc00 + (c.toNat - 0x10000) % 0x400) ++ γ)) = some (c, γ)
    rw [escScalarPair (by omega) (by omega)]
    rw [hexBind (parseHex4_print (by omega) γ)]
    show (if 0xdc00 ≤ (0xdc00 + (c.toNat - 0x10000) % 0x400) &&
        (0xdc00 + (c.toNat - 0x10000) % 0x400) < 0xe000 then
      (charOfNat? (0x10000 + (0xd800 + (c.toNat - 0x10000) / 0x400 - 0xd800) * 0x400 +
        ((0xdc00 + (c.toNat - 0x10000) % 0x400) - 0xdc00))).map (fun d => (d, γ))
      else none) = some (c, γ)
    rw [if_pos (by simp; omega)]
    have hval : 0x10000 + (0xd800 + (c.toNat - 0x10000) / 0x400 - 0xd800) * 0x400 +
        (0xdc00 + (c.toNat - 0x10000) % 0x400 - 0xdc00) = c.toNat := by
      have := Nat.div_add_mod (c.toNat - 0x10000) 0x400
      omega
    rw [hval, charOfNat?_toNat]
    rfl
  rw [hesc]

theorem parseStrBody_step (f : Nat) (c : Char) (γ : List Char) :
    parseStrBody (f + 1) (escapeChar c ++ γ) =
      (parseStrBody f γ).map (fun p => (c :: p.1, p.2)) := by
  have hv := char_valid c
  by_cases h1 : c = '"'
  · subst h1; rfl
  by_cases h2 : c = '\\'
  · subst h2; rfl
  by_cases h3 : c = '\n'
  · subst h3; rfl
  by_cases h4 : c = '\r'
  · subst h4; rfl
  by_cases h5 : c = '\t'
  · subst h5; rfl
  by_cases h6 : c = '\x08'
  · subst h6; rfl
  by_cases h7 : c = '\x0c'
  · subst h7; rfl
  simp only [escapeChar, if_neg h1, if_neg h2, if_neg h3, if_neg h4, if_neg h5,
    if_neg h6, if_neg h7]
  by_cases h8 : c.toNat < 0x20
  · simp only [if_pos h8, List.cons_append]
    exact parseStrBody_esc_u f c γ (Or.inl (by omega))
  by_cases h9 : c.toNat < 0x7f
  · simp only [if_neg h8, if_pos h9, List.cons_append, List.nil_append]
    simp only [parseStrBody, if_neg h1, if_neg h2, if_neg h8]
  by_cases h10 : c.toNat < 0x10000
  · simp only [if_neg h8, if_neg h9, if_pos h10, List.cons_append]
    refine parseStrBody_esc_u f c γ ?_
    rcases hv with hlo | ⟨hgt, _⟩
    · exact Or.inl hlo
    · exact Or.inr ⟨hgt, by omega⟩
  · simp only [if_neg h8, if_neg h9, if_neg h10, List.cons_append, List.append_assoc]
    have hlt : c.toNat < 0x110000 := by
      rcases hv with hlo | ⟨_, hhi⟩
      · omega
      · exact hhi
    exact parseStrBody_esc_pair f c γ h10 hlt

theorem parseStrBody_print : ∀ fuel (cs : List Char) (rest : List Char),
    cs.length + 1 ≤ fuel →
    parseStrBody fuel (escChars cs ++ ('"' :: rest)) = some (cs, rest) := by
  intro fuel
  induction fuel with
  | zero => intro cs rest h; omega
  | succ f ih =>
    intro cs rest h
    rcases cs with _ | ⟨c, cs'⟩
    · rfl
    · simp only [escChars, List.append_assoc]
      rw [parseStrBody_step f c _, ih cs' rest (by simp at h; omega)]
      rfl

set_option maxHeartbeats 1000000 in
theorem escapeChar_length_pos (c : Char) : 1 ≤ (escapeChar c).length := by
  unfold escapeChar
  split_ifs <;>
    simp only [hex4, List.length_cons, List.length_nil, List.length_append] <;>
    omega

theorem escChars_length (cs : List Char) : cs.length ≤ (escChars cs).length := by
  induction cs with
  | nil => simp [escChars]
  | cons c t ih =>
    simp only [escChars, List.length_append, List.length_cons]
    have := escapeChar_length_pos c
    omega

/-! ## Round-trip lemmas: whitespace, sizes, printer heads -/

mutual
/-- Structural size of a value; a fuel bound for the parser. -/
def sizeJ : Json → Nat
  | .null => 1
  | .bool _ => 1
  | .num _ _ => 1
  | .str _ => 1
  | .arr xs => 1 + sizeL xs
  | .obj kvs => 1 + sizeM kvs
/-- Size of array elements. -/
def sizeL : List Json → Nat
  | [] => 0
  | x :: xs => 1 + sizeJ x + sizeL xs
/-- Size of object members. -/
def sizeM : List (String × Json) → Nat
  | [] => 0
  | kv :: kvs => 1 + sizeJ kv.2 + sizeM kvs
end

theorem sizeJ_pos (v : Json) : 1 ≤ sizeJ v := by
  cases v <;> simp [sizeJ]

theorem skipWs_cons {c : Char} (t : List Char) (h : isWsChar c = false) :
    skipWs (c :: t) = c :: t := by
  simp [skipWs, h]

theorem skipWs_nl (l : List Char) : skipWs ('\n' :: l) = skipWs l := rfl

theorem skipWs_spaces (n : Nat) (l : List Char) :
    skipWs (spacesC n ++ l) = skipWs l := by
  induction n with
  | zero => rfl
  | succ k ih =>
    have h : spacesC (k + 1) = ' ' :: spacesC k := by
      simp [spacesC, List.replicate]
    rw [h]
    simpa [skipWs] using ih

theorem isDigit_head_props {c : Char} (h : c.isDigit = true) :
    isWsChar c = false ∧ c ≠ ']' ∧ c ≠ '}' ∧ c ≠ ',' ∧ c ≠ 'n' ∧ c ≠ 't' ∧
      c ≠ 'f' ∧ c ≠ '"' ∧ c ≠ '[' ∧ c ≠ '{' := by
  have hw : isWsChar c = false := by
    cases hc : isWsChar c
    · rfl
    · exfalso
      simp [isWsChar] at hc
      rcases hc with ((rfl | rfl) | rfl) | rfl <;> exact absurd h (by decide)
  refine ⟨hw, ?_, ?_, ?_, ?_, ?_, ?_, ?_, ?_, ?_⟩
  all_goals rintro rfl <;> exact absurd h (by decide)

theorem numChars_cons (m : Int) (e : Nat) :
    ∃ c t, numChars m e = c :: t ∧ (c = '-' ∨ c.isDigit = true) := by
  by_cases he : e = 0
  · subst he
    rw [numChars, if_pos rfl, intChars]
    by_cases hm : m < 0
    · rw [if_pos hm]
      exact ⟨'-', _, rfl, Or.inl rfl⟩
    · rw [if_neg hm]
      obtain ⟨c, t, hct, hcd⟩ := natChars_cons m.natAbs
      exact ⟨c, t, hct, Or.inr hcd⟩
  · rw [numChars, if_neg he]
    by_cases hm : m < 0
    · rw [if_pos hm]
      exact ⟨'-', _, rfl, Or.inl rfl⟩
    · rw [if_neg hm]
      obtain ⟨c, t, hct, hcd⟩ := natChars_cons (m.natAbs / 10 ^ e)
      refine ⟨c, t ++ ('.' :: fracChars e (m.natAbs % 10 ^ e)), ?_, Or.inr hcd⟩
      rw [hct]
      rfl

theorem printVal_head (ind : Nat) (v : Json) :
    ∃ c t, printVal ind v = c :: t ∧ isWsChar c = false ∧ c ≠ ']' ∧ c ≠ '}' ∧
      c ≠ ',' := by
  cases v with
  | null => exact ⟨'n', _, rfl, by decide, by decide, by decide, by decide⟩
  | bool b =>
    cases b
    · exact ⟨'f', _, rfl, by decide, by decide, by decide, by decide⟩
    · exact ⟨'t', _, rfl, by decide, by decide, by decide, by decide⟩
  | num m e =>
    obtain ⟨c, t, hct, hc⟩ := numChars_cons m e
    refine ⟨c, t, by simp [printVal, hct], ?_, ?_, ?_, ?_⟩ <;>
      rcases hc with rfl | hd
    · decide
    · exact (isDigit_head_props hd).1
    · decide
    · exact (isDigit_head_props hd).2.1
    · decide
    · exact (isDigit_head_props hd).2.2.1
    · decide
    · exact (isDigit_head_props hd).2.2.2.1
  | str s => exact ⟨'"', _, rfl, by decide, by decide, by decide, by decide⟩
  | arr xs =>
    cases xs
    · exact ⟨'[', _, rfl, by decide, by decide, by decide, by decide⟩
    · exact ⟨'[', _, rfl, by decide, by decide, by decide, by decide⟩
  | obj kvs =>
    cases kvs
    · exact ⟨'{', _, rfl, by decide, by decide, by decide, by decide⟩
    · exact ⟨'{', _, rfl, by decide, by decide, by decide, by decide⟩

mutual
/-- A value prints to at least its size in characters. -/
theorem printVal_len : (ind : Nat) → (v : Json) → sizeJ v ≤ (printVal ind v).length
  | _, .null => by simp [sizeJ, printVal]
  | _, .bool b => by cases b <;> simp [sizeJ, printVal]
  | _, .num m e => by
    obtain ⟨c, t, hct, _⟩ := numChars_cons m e
    simp [sizeJ, printVal, hct]
  | _, .str s => by simp [sizeJ, printVal]
  | _, .arr [] => by simp [sizeJ, sizeL, printVal]
  | ind, .arr (x :: xs) => by
    have h1 := printVal_len (ind + 2) x
    have h2 := printListRest_len (ind + 2) xs
    simp only [sizeJ, sizeL, printVal, List.length_cons, List.length_append]
    omega
  | _, .obj [] => by simp [sizeJ, sizeM, printVal]
  | ind, .obj (kv :: kvs) => by
    have h1 := printMember_len (ind + 2) kv
    have h2 := printMembersRest_len (ind + 2) kvs
    simp only [sizeJ, sizeM, printVal, List.length_cons, List.length_append]
    omega
/-- Trailing array elements print to at least their size. -/
theorem printListRest_len : (ind : Nat) → (xs : List Json) →
    sizeL xs ≤ (printListRest ind xs).length
  | _, [] => by simp [sizeL, printListRest]
  | ind, x :: xs => by
    have h1 := printVal_len ind x
    have h2 := printListRest_len ind xs
    simp only [sizeL, printListRest, List.length_cons, List.length_append]
    omega
/-- A member prints to at least one more than its value size. -/
theorem printMember_len : (ind : Nat) → (kv : String × Json) →
    1 + sizeJ kv.2 ≤ (printMember ind kv).length
  | ind, (k, v) => by
    have h1 := printVal_len ind v
    simp only [printMember, List.length_cons, List.length_append]
    omega
/-- Trailing object members print to at least their size. -/
theorem printMembersRest_len : (ind : Nat) → (kvs : List (String × Json)) →
    sizeM kvs ≤ (printMembersRest ind kvs).length
  | _, [] => by simp [sizeM, printMembersRest]
  | ind, kv :: kvs => by
    have h1 := printMember_len ind kv
    have h2 := printMembersRest_len ind kvs
    simp only [sizeM, printMembersRest, List.length_cons, List.length_append]
    omega
end

/-! ## The round-trip theorem -/

theorem mkData (s : String) : String.mk s.data = s := rfl

theorem skipWs_indent (n : Nat) (l : List Char) :
    skipWs ('\n' :: (spacesC n ++ l)) = skipWs l := by
  rw [skipWs_nl, skipWs_spaces]

theorem skipWs_space (l : List Char) : skipWs (' ' :: l) = skipWs l := rfl

theorem parseValue_congr (fuel : Nat) {cs cs' : List Char}
    (h : skipWs cs = skipWs cs') : parseValue fuel cs = parseValue fuel cs' := by
  cases fuel with
  | zero => rfl
  | succ f => simp only [parseValue, h]

theorem parseElems_congr (fuel : Nat) {cs cs' : List Char}
    (h : skipWs cs = skipWs cs') : parseElems fuel cs = parseElems fuel cs' := by
  cases fuel with
  | zero => rfl
  | succ f => simp only [parseElems, parseValue_congr f h]

theorem parseMembers_congr (fuel : Nat) {cs cs' : List Char}
    (h : skipWs cs = skipWs cs') : parseMembers fuel cs = parseMembers fuel cs' := by
  cases fuel with
  | zero => rfl
  | succ f => simp only [parseMembers, h]

theorem skipWs_print (ind : Nat) (v : Json) (rest : List Char) :
    skipWs (printVal ind v ++ rest) = printVal ind v ++ rest := by
  obtain ⟨c, t, hct, hws, _, _, _⟩ := printVal_head ind v
  rw [hct, List.cons_append, skipWs_cons _ hws, ← List.cons_append, ← hct]

theorem parseValue_quote (fuel : Nat) (r : List Char) :
    parseValue (fuel + 1) ('"' :: r) =
      (parseStrBody r.length r).map (fun p => (.str (String.mk p.1), p.2)) := rfl

theorem parseValue_lbrack (fuel : Nat) (r : List Char) :
    parseValue (fuel + 1) ('[' :: r) =
      (match skipWs r with
       | [] => none
       | d :: r2 =>
         if d = ']' then some (.arr [], r2)
         else (parseElems fuel (d :: r2)).map (fun p => (.arr p.1, p.2))) := rfl

theorem parseValue_lbrace (fuel : Nat) (r : List Char) :
    parseValue (fuel + 1) ('{' :: r) =
      (match skipWs r with
       | [] => none
       | d :: r2 =>
         if d = '}' then some (.obj [], r2)
         else (parseMembers fuel (d :: r2)).map (fun p => (.obj p.1, p.2))) := rfl

theorem parseValue_other (fuel : Nat) (c : Char) (r : List Char)
    (hws : isWsChar c = false) (h1 : c ≠ 'n') (h2 : c ≠ 't') (h3 : c ≠ 'f')
    (h4 : c ≠ '"') (h5 : c ≠ '[') (h6 : c ≠ '{') :
    parseValue (fuel + 1) (c :: r) =
      (parseNumber (c :: r)).map (fun p => (.num p.1.1 p.1.2, p.2)) := by
  simp only [parseValue]
  rw [skipWs_cons _ hws]
  split
  · rename_i heq
    exact absurd heq (by simp)
  · rename_i c' r' heq
    injection heq with ha hb
    subst ha
    subst hb
    rw [if_neg h1, if_neg h2, if_neg h3, if_neg h4, if_neg h5, if_neg h6]

theorem roundAux : ∀ fuel : Nat,
    (∀ (ind : Nat) (v : Json) (rest : List Char), sizeJ v ≤ fuel → numOk rest = true →
      parseValue fuel (printVal ind v ++ rest) = some (v, rest)) ∧
    (∀ (ind ind2 : Nat) (x : Json) (xs : List Json) (rest : List Char),
      sizeL (x :: xs) ≤ fuel →
      parseElems fuel (printVal ind x ++ (printListRest ind xs ++
        ('\n' :: (spacesC ind2 ++ (']' :: rest))))) = some (x :: xs, rest)) ∧
    (∀ (ind ind2 : Nat) (kv : String × Json) (kvs : List (String × Json))
      (rest : List Char), sizeM (kv :: kvs) ≤ fuel →
      parseMembers fuel (printMember ind kv ++ (printMembersRest ind kvs ++
        ('\n' :: (spacesC ind2 ++ ('}' :: rest))))) = some (kv :: kvs, rest)) := by
  intro fuel
  induction fuel with
  | zero =>
    refine ⟨?_, ?_, ?_⟩
    · intro ind v rest hs _
      have := sizeJ_pos v
      omega
    · intro ind ind2 x xs rest hs
      simp [sizeL] at hs
    · intro ind ind2 kv kvs rest hs
      simp [sizeM] at hs
  | succ f ih =>
    obtain ⟨ihA, ihB, ihC⟩ := ih
    refine ⟨?_, ?_, ?_⟩
    · -- values
      intro ind v rest hs hok
      cases v with
      | null => rfl
      | bool b => cases b <;> rfl
      | str s =>
        show parseValue (f + 1) ('"' :: ((escChars s.data ++ ['"']) ++ rest)) =
          some (.str s, rest)
        have hshape : (escChars s.data ++ ['"']) ++ rest =
            escChars s.data ++ ('"' :: rest) := by simp
        rw [hshape, parseValue_quote]
        rw [parseStrBody_print _ s.data rest
          (by
            simp only [List.length_append, List.length_cons]
            have := escChars_length s.data
            omega)]
        rfl
      | num m e =>
        obtain ⟨c, t, hct, hc⟩ := numChars_cons m e
        show parseValue (f + 1) (numChars m e ++ rest) = some (.num m e, rest)
        rw [hct, List.cons_append]
        have hprops : isWsChar c = false ∧ c ≠ 'n' ∧ c ≠ 't' ∧ c ≠ 'f' ∧
            c ≠ '"' ∧ c ≠ '[' ∧ c ≠ '{' := by
          rcases hc with rfl | hd
          · exact ⟨by decide, by decide, by decide, by decide, by decide,
              by decide, by decide⟩
          · have h := isDigit_head_props hd
            exact ⟨h.1, h.2.2.2.2.1, h.2.2.2.2.2.1, h.2.2.2.2.2.2.1,
              h.2.2.2.2.2.2.2.1, h.2.2.2.2.2.2.2.2.1, h.2.2.2.2.2.2.2.2.2⟩
        rw [parseValue_other f c (t ++ rest) hprops.1 hprops.2.1 hprops.2.2.1
          hprops.2.2.2.1 hprops.2.2.2.2.1 hprops.2.2.2.2.2.1 hprops.2.2.2.2.2.2]
        rw [← List.cons_append, ← hct, parseNumber_print m e hok]
        rfl
      | arr xs =>
        cases xs with
        | nil => rfl
        | cons x xs =>
          show parseValue (f + 1)
            ('[' :: ('\n' :: (spacesC (ind + 2) ++ (printVal (ind + 2) x ++
              (printListRest (ind + 2) xs ++
                ('\n' :: (spacesC ind ++ [']']))))) ++ rest)) = _
          have hshape : ('\n' :: (spacesC (ind + 2) ++ (printVal (ind + 2) x ++
              (printListRest (ind + 2) xs ++ ('\n' :: (spacesC ind ++ [']']))))) ++ rest) =
              '\n' :: (spacesC (ind + 2) ++ (printVal (ind + 2) x ++
                (printListRest (ind + 2) xs ++
                  ('\n' :: (spacesC ind ++ (']' :: rest)))))) := by
            simp
          rw [hshape, parseValue_lbrack]
          rw [skipWs_indent, skipWs_print]
          obtain ⟨c, t, hct, hws, hne1, hne2, hne3⟩ := printVal_head (ind + 2) x
          rw [hct, List.cons_append]
          have hlist : sizeL (x :: xs) ≤ f := by
            simp [sizeJ] at hs
            omega
          show (if c = ']' then some (Json.arr [], t ++ (printListRest (ind + 2) xs ++
              ('\n' :: (spacesC ind ++ (']' :: rest)))))
            else (parseElems f (c :: (t ++ (printListRest (ind + 2) xs ++
              ('\n' :: (spacesC ind ++ (']' :: rest))))))).map
                (fun p => (Json.arr p.1, p.2))) = _
          rw [if_neg hne1, ← List.cons_append, ← hct, ihB (ind + 2) ind x xs rest hlist]
          rfl
      | obj kvs =>
        cases kvs with
        | nil => rfl
        | cons kv kvs =>
          show parseValue (f + 1)
            ('{' :: ('\n' :: (spacesC (ind + 2) ++ (printMember (ind + 2) kv ++
              (printMembersRest (ind + 2) kvs ++
                ('\n' :: (spacesC ind ++ ['}']))))) ++ rest)) = _
          have hshape : ('\n' :: (spacesC (ind + 2) ++ (printMember (ind + 2) kv ++
              (printMembersRest (ind + 2) kvs ++ ('\n' :: (spacesC ind ++ ['}']))))) ++ rest) =
              '\n' :: (spacesC (ind + 2) ++ (printMember (ind + 2) kv ++
                (printMembersRest (ind + 2) kvs ++
                  ('\n' :: (spacesC ind ++ ('}' :: rest)))))) := by
            simp
          rw [hshape, parseValue_lbrace]
          obtain ⟨k, v⟩ := kv
          have hmem : printMember (ind + 2) (k, v) =
              '"' :: (escChars k.data ++ ('"' :: ':' :: ' ' :: printVal (ind + 2) v)) := rfl
          rw [skipWs_indent, hmem, List.cons_append, skipWs_cons _ (by decide)]
          have hlist : sizeM ((k, v) :: kvs) ≤ f := by
            simp [sizeJ] at hs
            omega
          show (if ('"' : Char) = '}' then _
            else (parseMembers f ('"' :: ((escChars k.data ++
              ('"' :: ':' :: ' ' :: printVal (ind + 2) v)) ++
              (printMembersRest (ind + 2) kvs ++
                ('\n' :: (spacesC ind ++ ('}' :: rest))))))).map
                (fun p => (Json.obj p.1, p.2))) = _
          rw [if_neg (by decide : ¬('"' : Char) = '}')]
          rw [show '"' :: ((escChars k.data ++ ('"' :: ':' :: ' ' :: printVal (ind + 2) v)) ++
              (printMembersRest (ind + 2) kvs ++ ('\n' :: (spacesC ind ++ ('}' :: rest))))) =
            printMember (ind + 2) (k, v) ++ (printMembersRest (ind + 2) kvs ++
              ('\n' :: (spacesC ind ++ ('}' :: rest)))) from by rw [hmem]; simp]
          rw [ihC (ind + 2) ind (k, v) kvs rest hlist]
          rfl
    · -- array elements
      intro ind ind2 x xs rest hs
      have hsx : sizeJ x ≤ f := by
        simp [sizeL] at hs
        omega
      have hokK : numOk (printListRest ind xs ++
          ('\n' :: (spacesC ind2 ++ (']' :: rest)))) = true := by
        cases xs with
        | nil => rfl
        | cons y ys => rfl
      simp only [parseElems]
      rw [ihA ind x _ hsx hokK]
      cases xs with
      | nil =>
        show (match skipWs (printListRest ind [] ++
            ('\n' :: (spacesC ind2 ++ (']' :: rest)))) with
          | [] => none
          | d :: r2 =>
            if d = ',' then (parseElems f r2).map (fun p => (x :: p.1, p.2))
            else if d = ']' then some ([x], r2)
            else none) = some ([x], rest)
        rw [show printListRest ind ([] : List Json) ++
            ('\n' :: (spacesC ind2 ++ (']' :: rest))) =
          '\n' :: (spacesC ind2 ++ (']' :: rest)) from rfl]
        rw [skipWs_indent, skipWs_cons _ (by decide)]
        rfl
      | cons y ys =>
        show (match skipWs (printListRest ind (y :: ys) ++
            ('\n' :: (spacesC ind2 ++ (']' :: rest)))) with
          | [] => none
          | d :: r2 =>
            if d = ',' then (parseElems f r2).map (fun p => (x :: p.1, p.2))
            else if d = ']' then some ([x], r2)
            else none) = some (x :: y :: ys, rest)
        rw [show printListRest ind (y :: ys) ++
            ('\n' :: (spacesC ind2 ++ (']' :: rest))) =
          ',' :: ('\n' :: (spacesC ind ++ (printVal ind y ++ (printListRest ind ys ++
            ('\n' :: (spacesC ind2 ++ (']' :: rest))))))) from by
          simp [printListRest]]
        rw [skipWs_cons _ (by decide)]
        show (if (',' : Char) = ',' then
            (parseElems f ('\n' :: (spacesC ind ++ (printVal ind y ++
              (printListRest ind ys ++ ('\n' :: (spacesC ind2 ++ (']' :: rest)))))))).map
              (fun p => (x :: p.1, p.2))
          else _) = _
        rw [if_pos rfl]
        rw [parseElems_congr f (skipWs_indent ind (printVal ind y ++
          (printListRest ind ys ++ ('\n' :: (spacesC ind2 ++ (']' :: rest))))))]
        have hys : sizeL (y :: ys) ≤ f := by
          simp [sizeL] at hs ⊢
          omega
        rw [ihB ind ind2 y ys rest hys]
        rfl
    · -- object members
      intro ind ind2 kv kvs rest hs
      obtain ⟨k, v⟩ := kv
      have hsv : sizeJ v ≤ f := by
        simp [sizeM] at hs
        omega
      simp only [parseMembers]
      have hmem : printMember ind (k, v) ++ (printMembersRest ind kvs ++
          ('\n' :: (spacesC ind2 ++ ('}' :: rest)))) =
          '"' :: (escChars k.data ++ ('"' :: (':' :: (' ' :: (printVal ind v ++
            (printMembersRest ind kvs ++
              ('\n' :: (spacesC ind2 ++ ('}' :: rest))))))))) := by
        show ('"' :: (escChars k.data ++ ('"' :: ':' :: ' ' :: printVal ind v))) ++ _ = _
        simp
      rw [hmem, skipWs_cons _ (by decide)]
      show (if ('"' : Char) = '"' then
          match parseStrBody (escChars k.data ++ ('"' :: (':' :: (' ' :: (printVal ind v ++
            (printMembersRest ind kvs ++
              ('\n' :: (spacesC ind2 ++ ('}' :: rest))))))))).length
            (escChars k.data ++ ('"' :: (':' :: (' ' :: (printVal ind v ++
              (printMembersRest ind kvs ++
                ('\n' :: (spacesC ind2 ++ ('}' :: rest))))))))) with
          | none => none
          | some (kcs, r2) => _
        else none) = _
      rw [if_pos rfl]
      rw [parseStrBody_print _ k.data _
        (by
          simp only [List.length_append, List.length_cons]
          have := escChars_length k.data
          omega)]
      show (match skipWs (':' :: (' ' :: (printVal ind v ++ (printMembersRest ind kvs ++
          ('\n' :: (spacesC ind2 ++ ('}' :: rest))))))) with
        | [] => none
        | d :: r3 =>
          if d = ':' then
            match parseValue f r3 with
            | none => none
            | some (v2, r4) =>
              match skipWs r4 with
              | [] => none
              | d2 :: r5 =>
                if d2 = ',' then (parseMembers f r5).map
                  (fun p : List (String × Json) × List Char =>
                    ((String.mk k.data, v2) :: p.1, p.2))
                else if d2 = '}' then some ([(String.mk k.data, v2)], r5)
                else none
          else none) = _
      rw [skipWs_cons _ (by decide)]
      show (if (':' : Char) = ':' then
          match parseValue f (' ' :: (printVal ind v ++ (printMembersRest ind kvs ++
            ('\n' :: (spacesC ind2 ++ ('}' :: rest)))))) with
          | none => none
          | some (v2, r4) =>
            match skipWs r4 with
            | [] => none
            | d2 :: r5 =>
              if d2 = ',' then (parseMembers f r5).map
                (fun p : List (String × Json) × List Char =>
                  ((String.mk k.data, v2) :: p.1, p.2))
              else if d2 = '}' then some ([(String.mk k.data, v2)], r5)
              else none
        else none) = _
      rw [if_pos rfl]
      rw [parseValue_congr f (skipWs_space (printVal ind v ++ (printMembersRest ind kvs ++
        ('\n' :: (spacesC ind2 ++ ('}' :: rest))))))]
      have hokK : numOk (printMembersRest ind kvs ++
          ('\n' :: (spacesC ind2 ++ ('}' :: rest)))) = true := by
        cases kvs with
        | nil => rfl
        | cons kv2 kvs2 => rfl
      rw [ihA ind v _ hsv hokK, mkData]
      cases kvs with
      | nil =>
        show (match skipWs (printMembersRest ind [] ++
            ('\n' :: (spacesC ind2 ++ ('}' :: rest)))) with
          | [] => none
          | d2 :: r5 =>
            if d2 = ',' then (parseMembers f r5).map (fun p => ((k, v) :: p.1, p.2))
            else if d2 = '}' then some ([(k, v)], r5)
            else none) = some ([(k, v)], rest)
        rw [show printMembersRest ind ([] : List (String × Json)) ++
            ('\n' :: (spacesC ind2 ++ ('}' :: rest))) =
          '\n' :: (spacesC ind2 ++ ('}' :: rest)) from rfl]
        rw [skipWs_indent, skipWs_cons _ (by decide)]
        rfl
      | cons kv2 kvs2 =>
        show (match skipWs (printMembersRest ind (kv2 :: kvs2) ++
            ('\n' :: (spacesC ind2 ++ ('}' :: rest)))) with
          | [] => none
          | d2 :: r5 =>
            if d2 = ',' then (parseMembers f r5).map (fun p => ((k, v) :: p.1, p.2))
            else if d2 = '}' then some ([(k, v)], r5)
            else none) = some ((k, v) :: kv2 :: kvs2, rest)
        rw [show printMembersRest ind (kv2 :: kvs2) ++
            ('\n' :: (spacesC ind2 ++ ('}' :: rest))) =
          ',' :: ('\n' :: (spacesC ind ++ (printMember ind kv2 ++ (printMembersRest ind kvs2 ++
            ('\n' :: (spacesC ind2 ++ ('}' :: rest))))))) from by
          simp [printMembersRest]]
        rw [skipWs_cons _ (by decide)]
        show (if (',' : Char) = ',' then
            (parseMembers f ('\n' :: (spacesC ind ++ (printMember ind kv2 ++
              (printMembersRest ind kvs2 ++
                ('\n' :: (spacesC ind2 ++ ('}' :: rest)))))))).map
              (fun p => ((k, v) :: p.1, p.2))
          else _) = _
        rw [if_pos rfl]
        rw [parseMembers_congr f (skipWs_indent ind (printMember ind kv2 ++
          (printMembersRest ind kvs2 ++ ('\n' :: (spacesC ind2 ++ ('}' :: rest))))))]
        have hkvs : sizeM (kv2 :: kvs2) ≤ f := by
          simp [sizeM] at hs ⊢
          omega
        rw [ihC ind ind2 kv2 kvs2 rest hkvs]
        rfl

/-- Serializing any JSON value with `dumps` and parsing it back with `loads`
recovers the value exactly. -/
theorem loads_dumps (v : Json) : loads (dumps v) = some v := by
  have hlen : sizeJ v ≤ (printVal 0 v).length + 1 := by
    have := printVal_len 0 v
    omega
  have h := (roundAux ((printVal 0 v).length + 1)).1 0 v [] hlen rfl
  rw [List.append_nil] at h
  show (match parseValue ((printVal 0 v).length + 1) (printVal 0 v) with
    | none => none
    | some (v, r) => if (skipWs r).isEmpty then some v else none) = some v
  rw [h]
  rfl

/-! ## Environment: the Python code's ambient effects, passed explicitly -/

/-- One entry produced by the directory listing in `FileTool.list_files`. -/
structure FileEntry where
  name : String
  is_directory : Bool
  size : Option Nat

/-- Outcome of `open(filepath).read()`: the content, `FileNotFoundError`, or
another `Exception` with its message. -/
inductive OpenResult where
  | found : String → OpenResult
  | notFound : OpenResult
  | ioError : String → OpenResult

/-- Ambient state the Python code reads: the clock used for `timestamp`
fields, the filesystem, and the `os` module data. -/
structure Env where
  now : String
  fs : String → OpenResult
  writeRes : String → String → Option String
  dirs : String → Except String (List FileEntry)
  osName : String
  cwd : String
  pyVersion : String

/-! ## Python `str()` of decoded JSON values, for f-string interpolation -/

mutual
/-- Python `str()` of a decoded JSON value (used by the dispatchers'
f-strings such as the unknown-method and tool-not-found messages). -/
def pyShow : Json → String
  | .null => "None"
  | .bool true => "True"
  | .bool false => "False"
  | .num m e => String.mk (numChars m e)
  | .str s => s
  | .arr xs => "[" ++ pyShowElems xs ++ "]"
  | .obj kvs => "\x7b" ++ pyShowMembers kvs ++ "\x7d"
/-- Python `repr()` of a decoded JSON value, used inside containers. -/
def pyRepr : Json → String
  | .null => "None"
  | .bool true => "True"
  | .bool false => "False"
  | .num m e => String.mk (numChars m e)
  | .str s => "'" ++ s ++ "'"
  | .arr xs => "[" ++ pyShowElems xs ++ "]"
  | .obj kvs => "\x7b" ++ pyShowMembers kvs ++ "\x7d"
/-- Comma-separated element reprs. -/
def pyShowElems : List Json → String
  | [] => ""
  | [x] => pyRepr x
  | x :: xs => pyRepr x ++ ", " ++ pyShowElems xs
/-- Comma-separated `'key': value` member reprs. -/
def pyShowMembers : List (String × Json) → String
  | [] => ""
  | [(k, v)] => "'" ++ k ++ "': " ++ pyRepr v
  | (k, v) :: kvs => "'" ++ k ++ "': " ++ pyRepr v ++ ", " ++ pyShowMembers kvs
end

/-- `str()` of a possibly-missing value (`dict.get` returns `None`). -/
def pyShowOpt : Option Json → String
  | none => "None"
  | some j => pyShow j

/-- Python `x == "s"` for a possibly-missing decoded value: true exactly when
the value is that string (`None == s` and `5 == s` are `False`). -/
def optIsStr (m : Option Json) (s : String) : Bool :=
  match m with
  | some (.str t) => t == s
  | _ => false

/-! ## `server/tools.py`: the tool handlers -/

/-- Result dictionary of the calculator handlers, with exact rational
arithmetic standing in for Python floats. -/
structure CalcResult where
  operation : String
  operands : ℚ × ℚ
  result : ℚ
  timestamp : String

namespace CalculatorTool

def add (a b : ℚ) (now : String) : CalcResult :=
  { operation := "addition", operands := (a, b), result := a + b, timestamp := now }

def subtract (a b : ℚ) (now : String) : CalcResult :=
  { operation := "subtraction", operands := (a, b), result := a - b, timestamp := now }

def multiply (a b : ℚ) (now : String) : CalcResult :=
  { operation := "multiplication", operands := (a, b), result := a * b, timestamp := now }

/-- `divide` raises `ValueError("Cannot divide by zero")` when `b == 0`. -/
def divide (a b : ℚ) (now : String) : Except String CalcResult :=
  if b = 0 then .error "Cannot divide by zero"
  else .ok { operation := "division", operands := (a, b), result := a / b, timestamp := now }

end CalculatorTool

/-- The mock weather table of `WeatherTool.get_weather`. -/
def weather_data : List (String × (Int × String × Int)) :=
  [("New York", (22, "Sunny", 65)),
   ("London", (15, "Cloudy", 80)),
   ("Tokyo", (25, "Rainy", 75)),
   ("Sydney", (28, "Clear", 60))]

namespace WeatherTool

def get_weather (city : String) (now : String) : Json :=
  match weather_data.find? (fun kv => kv.1 == city) with
  | some (_, t, cond, h) =>
    .obj [("city", .str city),
          ("weather", .obj [("temperature", .num t 0), ("condition", .str cond),
                            ("humidity", .num h 0)]),
          ("timestamp", .str now),
          ("source", .str "mock_data")]
  | none =>
    .obj [("city", .str city),
          ("weather", .obj [("temperature", .num 20 0), ("condition", .str "Unknown"),
                            ("humidity", .num 50 0)]),
          ("timestamp", .str now),
          ("source", .str "mock_data"),
          ("note", .str "City not found, returning default data")]

end WeatherTool

namespace FileTool

def read_file (fs : String → OpenResult) (now : String) (filepath : String) : Json :=
  match fs filepath with
  | .found content =>
    .obj [("filepath", .str filepath), ("content", .str content),
          ("size", .num (content.length : Int) 0), ("timestamp", .str now),
          ("status", .str "success")]
  | .notFound =>
    .obj [("filepath", .str filepath), ("error", .str "File not found"),
          ("timestamp", .str now), ("status", .str "error")]
  | .ioError e =>
    .obj [("filepath", .str filepath), ("error", .str e),
          ("timestamp", .str now), ("status", .str "error")]

def write_file (w : String → String → Option String) (now : String)
    (filepath : String) (content : String) : Json :=
  match w filepath content with
  | none =>
    .obj [("filepath", .str filepath), ("content_length", .num (content.length : Int) 0),
          ("timestamp", .str now), ("status", .str "success")]
  | some e =>
    .obj [("filepath", .str filepath), ("error", .str e),
          ("timestamp", .str now), ("status", .str "error")]

/-- JSON shape of one directory entry. -/
def entryJson (fe : FileEntry) : Json :=
  .obj [("name", .str fe.name), ("is_directory", .bool fe.is_directory),
        ("size", match fe.size with | some n => .num (n : Int) 0 | none => .null)]

def list_files (dirs : String → Except String (List FileEntry)) (now : String)
    (directory : String) : Json :=
  match dirs directory with
  | .ok entries =>
    .obj [("directory", .str directory), ("files", .arr (entries.map entryJson)),
          ("count", .num (entries.length : Int) 0), ("timestamp", .str now),
          ("status", .str "success")]
  | .error e =>
    .obj [("directory", .str directory), ("error", .str e),
          ("timestamp", .str now), ("status", .str "error")]

end FileTool

namespace SystemTool

def get_system_info (env : Env) : Json :=
  .obj [("platform", .str env.osName), ("current_directory", .str env.cwd),
        ("timestamp", .str env.now), ("python_version", .str env.pyVersion)]

def echo (message : String) (now : String) : Json :=
  .obj [("message", .str message), ("timestamp", .str now), ("status", .str "echoed")]

end SystemTool

/-! ## Wire adapters between JSON numbers and rationals -/

/-- The rational denoted by the wire decimal `m / 10^e` (written with
`Rat.divInt` so that concrete requests evaluate). -/
def decToRat (m : Int) (e : Nat) : ℚ := Rat.divInt m (Int.ofNat (10 ^ e))

/-- Decimal rendering of a rational: exact whenever the value has a finite
decimal expansion of at most 17 digits (every value arising from a Python
float does), truncated otherwise. -/
def ratToDec (q : ℚ) : Int × Nat :=
  match (List.range 18).find? (fun e => (q * (10 : ℚ) ^ e).den == 1) with
  | some e => ((q * (10 : ℚ) ^ e).num, e)
  | none => (⌊q * (10 : ℚ) ^ 17⌋, 17)

/-- JSON number carrying the rational `q`. -/
def jsonOfRat (q : ℚ) : Json := .num (ratToDec q).1 (ratToDec q).2

/-- JSON shape of a calculator result dictionary. -/
def calcResultJson (r : CalcResult) : Json :=
  .obj [("operation", .str r.operation),
        ("operands", .arr [jsonOfRat r.operands.1, jsonOfRat r.operands.2]),
        ("result", jsonOfRat r.result),
        ("timestamp", .str r.timestamp)]

/-- Read a numeric argument from the decoded arguments object. -/
def getNumArg (args : Json) (k : String) : Option ℚ :=
  match args.lookup k with
  | some (.num m e) => some (decToRat m e)
  | _ => none

/-- Read a string argument from the decoded arguments object. -/
def getStrArg (args : Json) (k : String) : Option String :=
  match args.lookup k with
  | some (.str s) => some s
  | _ => none

/-! ## `server/mcp_server.py`: registry and dispatcher -/

/-- One registered tool: its metadata and its handler, which may raise
(`Except.error` carries the exception's `str`). -/
structure ToolEntry where
  name : String
  description : String
  inputSchema : Json
  run : Env → Json → Except String Json

namespace MCPServer

/-- A `number`-typed schema property with a description. -/
def numProp (desc : String) : Json :=
  .obj [("type", .str "number"), ("description", .str desc)]

/-- A `string`-typed schema property with a description. -/
def strProp (desc : String) : Json :=
  .obj [("type", .str "string"), ("description", .str desc)]

def calcSchema : Json :=
  .obj [("type", .str "object"),
        ("properties", .obj [("a", numProp "First number"), ("b", numProp "Second number")]),
        ("required", .arr [.str "a", .str "b"])]

def weatherSchema : Json :=
  .obj [("type", .str "object"),
        ("properties", .obj [("city", strProp "City name")]),
        ("required", .arr [.str "city"])]

def readSchema : Json :=
  .obj [("type", .str "object"),
        ("properties", .obj [("filepath", strProp "Path to the file")]),
        ("required", .arr [.str "filepath"])]

def writeSchema : Json :=
  .obj [("type", .str "object"),
        ("properties", .obj [("filepath", strProp "Path to the file"),
                             ("content", strProp "Content to write")]),
        ("required", .arr [.str "filepath", .str "content"])]

def listSchema : Json :=
  .obj [("type", .str "object"),
        ("properties", .obj [("directory",
          .obj [("type", .str "string"), ("description", .str "Directory path"),
                ("default", .str ".")])])]

def sysSchema : Json :=
  .obj [("type", .str "object"), ("properties", .obj [])]

def echoSchema : Json :=
  .obj [("type", .str "object"),
        ("properties", .obj [("message", strProp "Message to echo")]),
        ("required", .arr [.str "message"])]

/-- Adapter running a total calculator handler on decoded arguments. -/
def runCalc (f : ℚ → ℚ → String → CalcResult) : Env → Json → Except String Json :=
  fun env args =>
    match getNumArg args "a", getNumArg args "b" with
    | some a, some b => .ok (calcResultJson (f a b env.now))
    | _, _ => .error "calculator arguments a and b must be numbers"

def runDivide : Env → Json → Except String Json := fun env args =>
  match getNumArg args "a", getNumArg args "b" with
  | some a, some b => (CalculatorTool.divide a b env.now).map calcResultJson
  | _, _ => .error "calculator arguments a and b must be numbers"

def runWeather : Env → Json → Except String Json := fun env args =>
  match getStrArg args "city" with
  | some city => .ok (WeatherTool.get_weather city env.now)
  | none => .error "get_weather requires a string argument city"

def runReadFile : Env → Json → Except String Json := fun env args =>
  match getStrArg args "filepath" with
  | some p => .ok (FileTool.read_file env.fs env.now p)
  | none => .error "read_file requires a string argument filepath"

def runWriteFile : Env → Json → Except String Json := fun env args =>
  match getStrArg args "filepath", getStrArg args "content" with
  | some p, some c => .ok (FileTool.write_file env.writeRes env.now p c)
  | _, _ => .error "write_file requires string arguments filepath and content"

/-- `file.list_files` is special-cased by `_handle_call_tool`: the handler
receives `arguments.get("directory", ".")`. -/
def runListFiles : Env → Json → Except String Json := fun env args =>
  match args.lookup "directory" with
  | none => .ok (FileTool.list_files env.dirs env.now ".")
  | some (.str d) => .ok (FileTool.list_files env.dirs env.now d)
  | some _ => .error "list_files argument directory must be a string"

def runSystemInfo : Env → Json → Except String Json := fun env _ =>
  .ok (SystemTool.get_system_info env)

def runEcho : Env → Json → Except String Json := fun env args =>
  match getStrArg args "message" with
  | some msg => .ok (SystemTool.echo msg env.now)
  | none => .error "echo requires a string argument message"

/-- The registry built by `_register_tools`, in registration order. -/
def tools : List ToolEntry :=
  [⟨"calculator.add", "Add two numbers", calcSchema, runCalc CalculatorTool.add⟩,
   ⟨"calculator.subtract", "Subtract two numbers", calcSchema, runCalc CalculatorTool.subtract⟩,
   ⟨"calculator.multiply", "Multiply two numbers", calcSchema, runCalc CalculatorTool.multiply⟩,
   ⟨"calculator.divide", "Divide two numbers", calcSchema, runDivide⟩,
   ⟨"weather.get_weather", "Get weather information for a city", weatherSchema, runWeather⟩,
   ⟨"file.read_file", "Read contents of a file", readSchema, runReadFile⟩,
   ⟨"file.write_file", "Write content to a file", writeSchema, runWriteFile⟩,
   ⟨"file.list_files", "List files in a directory", listSchema, runListFiles⟩,
   ⟨"system.get_system_info", "Get basic system information", sysSchema, runSystemInfo⟩,
   ⟨"system.echo", "Echo a message back", echoSchema, runEcho⟩]

/-- The server's `self.server_info`. -/
def server_info : Json :=
  .obj [("name", .str "Simple MCP Server"), ("version", .str "1.0.0"),
        ("description", .str "A demonstration MCP server with various tools"),
        ("capabilities", .arr [.str "tools", .str "resources"])]

/-- `_handle_initialize`. -/
def handleInitRequest (params : Json) : Json :=
  .obj [("protocolVersion", .str "2024-11-05"),
        ("capabilities", .obj [("tools", .obj [])]),
        ("serverInfo", server_info)]

/-- One descriptor in the `tools/list` result. -/
def toolDescriptor (t : ToolEntry) : Json :=
  .obj [("name", .str t.name), ("description", .str t.description),
        ("inputSchema", t.inputSchema)]

/-- `_handle_list_tools`. -/
def handleListTools (params : Json) : Json :=
  .obj [("tools", .arr (tools.map toolDescriptor))]

/-- Registry lookup, as `self.tools.get(tool_name)`. -/
def findTool (name : String) : Option ToolEntry :=
  tools.find? (fun t => t.name == name)

/-- `_handle_call_tool`: unknown tools raise
`ValueError(f"Tool not found: \x7btool_name\x7d")`; a handler result is
wrapped as a single text content block holding `json.dumps(result, indent=2)`. -/
def handleCallTool (env : Env) (params : Json) : Except String Json :=
  let tool_name := params.lookup "name"
  let arguments := params.getD "arguments" (.obj [])
  match (match tool_name with | some (.str s) => findTool s | _ => none) with
  | none => .error ("Tool not found: " ++ pyShowOpt tool_name)
  | some entry =>
    (entry.run env arguments).map (fun result =>
      .obj [("content",
             .arr [.obj [("type", .str "text"), ("text", .str (dumps result))]])])

/-- `handle_request`: route on `request.get("method")`; any exception becomes
a `-32603` error envelope carrying `str(e)` and echoing the request id; an
unknown method yields a SUCCESS envelope whose result is
`\x7b"error": f"Unknown method: \x7bmethod\x7d"\x7d`. -/
def handle_request (env : Env) (req : Json) : Json :=
  let method := req.lookup "method"
  let params := req.getD "params" (.obj [])
  let request_id := (req.lookup "id").getD .null
  let routed : Except String Json :=
    if optIsStr method "initialize" then .ok (handleInitRequest params)
    else if optIsStr method "tools/list" then .ok (handleListTools params)
    else if optIsStr method "tools/call" then handleCallTool env params
    else if optIsStr method "ping" then .ok (.obj [("pong", .bool true)])
    else .ok (.obj [("error", .str ("Unknown method: " ++ pyShowOpt method))])
  match routed with
  | .ok r =>
    .obj [("jsonrpc", .str "2.0"), ("id", request_id), ("result", r)]
  | .error e =>
    .obj [("jsonrpc", .str "2.0"), ("id", request_id),
          ("error", .obj [("code", .num (-32603) 0), ("message", .str e)])]

end MCPServer

/-! ## `client/mcp_client.py`: client state and simulated transport -/

namespace MCPClient

/-- The client's mutable fields. -/
structure State where
  request_id : Nat
  connected : Bool
  available_tools : List Json
  server_info : Json

/-- Field values set by `__init__`. -/
def initState : State :=
  { request_id := 0, connected := false, available_tools := [], server_info := .obj [] }

/-- `_get_next_request_id`: increment, then return the new value. -/
def get_next_request_id (s : State) : Nat × State :=
  (s.request_id + 1, { s with request_id := s.request_id + 1 })

/-- `_create_request`. -/
def create_request (s : State) (method : String) (params : Json) : Json × State :=
  let p := get_next_request_id s
  (.obj [("jsonrpc", .str "2.0"), ("id", .num (p.1 : Int) 0),
         ("method", .str method), ("params", params)], p.2)

/-- The params dict `connect` passes to its `"initialize"` request. -/
def connectParams : Json :=
  .obj [("protocolVersion", .str "2024-11-05"),
        ("capabilities", .obj [("tools", .obj [])]),
        ("clientInfo", .obj [("name", .str "Simple MCP Client"),
                             ("version", .str "1.0.0")])]

/-- The hardcoded tool descriptors of the client's `tools/list` simulation. -/
def simTools : List Json :=
  [.obj [("name", .str "calculator.add"), ("description", .str "Add two numbers"),
         ("inputSchema",
          .obj [("type", .str "object"),
                ("properties", .obj [("a", .obj [("type", .str "number")]),
                                     ("b", .obj [("type", .str "number")])]),
                ("required", .arr [.str "a", .str "b"])])],
   .obj [("name", .str "weather.get_weather"),
         ("description", .str "Get weather information for a city"),
         ("inputSchema",
          .obj [("type", .str "object"),
                ("properties", .obj [("city", .obj [("type", .str "string")])]),
                ("required", .arr [.str "city"])])],
   .obj [("name", .str "system.echo"), ("description", .str "Echo a message back"),
         ("inputSchema",
          .obj [("type", .str "object"),
                ("properties", .obj [("message", .obj [("type", .str "string")])]),
                ("required", .arr [.str "message"])])]]

/-- The mock tool result computed inside the client's `tools/call` simulation. -/
def simToolResult (env : Env) (tool_name : Option Json) (arguments : Json) : Json :=
  if optIsStr tool_name "calculator.add" then
    let a := (getNumArg arguments "a").getD 0
    let b := (getNumArg arguments "b").getD 0
    .obj [("operation", .str "addition"),
          ("operands", .arr [jsonOfRat a, jsonOfRat b]),
          ("result", jsonOfRat (a + b)),
          ("timestamp", .str env.now)]
  else if optIsStr tool_name "weather.get_weather" then
    let city := (getStrArg arguments "city").getD "Unknown"
    .obj [("city", .str city),
          ("weather", .obj [("temperature", .num 22 0), ("condition", .str "Sunny"),
                            ("humidity", .num 65 0)]),
          ("timestamp", .str env.now),
          ("source", .str "mock_data")]
  else if optIsStr tool_name "system.echo" then
    let message := (getStrArg arguments "message").getD ""
    .obj [("message", .str message), ("timestamp", .str env.now),
          ("status", .str "echoed")]
  else
    .obj [("error", .str ("Unknown tool: " ++ pyShowOpt tool_name))]

/-- `_simulate_server_request`: hardcoded responses per method; anything else
gets a `-32601` "Method not found" error envelope. -/
def simulate_server_request (env : Env) (req : Json) : Json :=
  let method := req.lookup "method"
  let params := req.getD "params" (.obj [])
  let request_id := (req.lookup "id").getD .null
  if optIsStr method "initialize" then
    .obj [("jsonrpc", .str "2.0"), ("id", request_id),
          ("result",
           .obj [("protocolVersion", .str "2024-11-05"),
                 ("capabilities", .obj [("tools", .obj [])]),
                 ("serverInfo",
                  .obj [("name", .str "Simple MCP Server"), ("version", .str "1.0.0"),
                        ("description",
                         .str "A demonstration MCP server with various tools")])])]
  else if optIsStr method "tools/list" then
    .obj [("jsonrpc", .str "2.0"), ("id", request_id),
          ("result", .obj [("tools", .arr simTools)])]
  else if optIsStr method "tools/call" then
    let result := simToolResult env (params.lookup "name") (params.getD "arguments" (.obj []))
    .obj [("jsonrpc", .str "2.0"), ("id", request_id),
          ("result",
           .obj [("content",
                  .arr [.obj [("type", .str "text"), ("text", .str (dumps result))]])])]
  else
    .obj [("jsonrpc", .str "2.0"), ("id", request_id),
          ("error", .obj [("code", .num (-32601) 0),
                          ("message", .str ("Method not found: " ++ pyShowOpt method))])]

/-- `connect`: always sends an `"initialize"` request; on an error response
returns `False`, otherwise stores `serverInfo` and sets `connected`. -/
def connect (env : Env) (s : State) : Bool × State :=
  let rs := create_request s "initialize" connectParams
  let resp := simulate_server_request env rs.1
  match resp.lookup "error" with
  | some _ => (false, rs.2)
  | none =>
    let si := (resp.getD "result" (.obj [])).getD "serverInfo" (.obj [])
    (true, { rs.2 with server_info := si, connected := true })

/-- `discover_tools`: when not connected, returns `[]` without creating a
request; otherwise sends `tools/list` and stores the result. -/
def discover_tools (env : Env) (s : State) : List Json × State :=
  if s.connected then
    let rs := create_request s "tools/list" (.obj [])
    let resp := simulate_server_request env rs.1
    match resp.lookup "error" with
    | some _ => ([], rs.2)
    | none =>
      let ts := ((resp.getD "result" (.obj [])).getD "tools" (.arr [])).asArr
      (ts, { rs.2 with available_tools := ts })
  else ([], s)

/-- `call_tool`: when not connected, returns `\x7b\x7d` without creating a
request; otherwise sends `tools/call` and decodes the first content block's
text with `json.loads`, returning `\x7b\x7d` on any error or empty content. -/
def call_tool (env : Env) (s : State) (tool_name : String) (arguments : Json) :
    Json × State :=
  if s.connected then
    let rs := create_request s "tools/call"
      (.obj [("name", .str tool_name), ("arguments", arguments)])
    let resp := simulate_server_request env rs.1
    match resp.lookup "error" with
    | some _ => (.obj [], rs.2)
    | none =>
      let content := ((resp.getD "result" (.obj [])).getD "content" (.arr [])).asArr
      match content.head? with
      | some c0 =>
        match c0.getD "text" (.str "{}") with
        | .str t =>
          match loads t with
          | some v => (v, rs.2)
          | none => (.obj [], rs.2)
        | _ => (.obj [], rs.2)
      | none => (.obj [], rs.2)
  else (.obj [], s)

/-- `disconnect`. -/
def disconnect (s : State) : State := { s with connected := false }

/-- One client API call, for stating properties of whole sessions. -/
inductive ClientOp where
  | connect : ClientOp
  | discover : ClientOp
  | call : String → Json → ClientOp
  | disconnect : ClientOp

/-- The state after running one operation. -/
def applyOp (env : Env) (s : State) : ClientOp → State
  | .connect => (connect env s).2
  | .discover => (discover_tools env s).2
  | .call n a => (call_tool env s n a).2
  | .disconnect => disconnect s

/-- The requests an operation puts on the (simulated) wire from state `s`. -/
def opSent (s : State) : ClientOp → List Json
  | .connect => [(create_request s "initialize" connectParams).1]
  | .discover =>
    if s.connected then [(create_request s "tools/list" (.obj [])).1] else []
  | .call n a =>
    if s.connected then
      [(create_request s "tools/call"
          (.obj [("name", .str n), ("arguments", a)])).1]
    else []
  | .disconnect => []

/-- All requests a session sends, in order. -/
def trace (env : Env) : State → List ClientOp → List Json
  | _, [] => []
  | s, op :: ops => opSent s op ++ trace env (applyOp env s op) ops

end MCPClient

/-! ## Helper lemmas about the dispatchers and the client session -/

/-- A fixed ambient environment for evaluating concrete scenarios. -/
def testEnv : Env :=
  { now := "2024-01-01T00:00:00", fs := fun _ => .notFound,
    writeRes := fun _ _ => none, dirs := fun _ => .ok [],
    osName := "posix", cwd := "/app", pyVersion := "3.11.0" }

/-- A true string comparison pins down the compared value. -/
theorem optIsStr_eq_some (m : Option Json) (s : String) (h : optIsStr m s = true) :
    m = some (.str s) := by
  cases m with
  | none => simp [optIsStr] at h
  | some j =>
    cases j with
    | str t => simp only [optIsStr, beq_iff_eq] at h; rw [h]
    | null => simp [optIsStr] at h
    | bool b => simp [optIsStr] at h
    | num a e => simp [optIsStr] at h
    | arr xs => simp [optIsStr] at h
    | obj kvs => simp [optIsStr] at h

/-- `_handle_call_tool` on a registered tool runs its handler and wraps the
result. -/
theorem handleCallTool_found (env : Env) (name : String) (t : ToolEntry)
    (args : Json) (hf : MCPServer.findTool name = some t) :
    MCPServer.handleCallTool env (.obj [("name", .str name), ("arguments", args)]) =
      (t.run env args).map (fun result =>
        Json.obj [("content",
          .arr [.obj [("type", .str "text"), ("text", .str (dumps result))]])]) := by
  show (match MCPServer.findTool name with
        | none => Except.error ("Tool not found: " ++ pyShowOpt (some (.str name)))
        | some entry => (entry.run env args).map (fun result =>
            Json.obj [("content",
              .arr [.obj [("type", .str "text"), ("text", .str (dumps result))]])])) = _
  rw [hf]

namespace MCPClient

/-- On a connected session, `call_tool` returns the decoded mock result and
bumps the request counter. -/
theorem call_tool_connected (env : Env) (s : State) (h : s.connected = true)
    (name : String) (args : Json) :
    call_tool env s name args =
      (simToolResult env (some (.str name)) args,
       { s with request_id := s.request_id + 1 }) := by
  obtain ⟨rid, conn, av, si⟩ := s
  replace h : conn = true := h
  subst h
  show (match loads (dumps (simToolResult env (some (.str name)) args)) with
        | some v => (v, ({ request_id := rid + 1, connected := true,
                           available_tools := av, server_info := si } : State))
        | none => (Json.obj [], ({ request_id := rid + 1, connected := true,
                                   available_tools := av, server_info := si } : State))) = _
  rw [loads_dumps]

/-- On a connected session, `discover_tools` returns the hard-coded mock tool
list and stores it. -/
theorem discover_tools_connected (env : Env) (s : State) (h : s.connected = true) :
    discover_tools env s =
      (simTools, { s with request_id := s.request_id + 1,
                          available_tools := simTools }) := by
  obtain ⟨rid, conn, av, si⟩ := s
  replace h : conn = true := h
  subst h
  rfl

/-- `connect` always succeeds against the simulated transport. -/
theorem connect_eq (env : Env) (s : State) :
    connect env s =
      (true, { s with request_id := s.request_id + 1, connected := true,
                      server_info := .obj
                        [("name", .str "Simple MCP Server"), ("version", .str "1.0.0"),
                         ("description",
                          .str "A demonstration MCP server with various tools")] }) := by
  obtain ⟨rid, conn, av, si⟩ := s
  rfl

/-- Each operation advances the request counter by the number of requests it
put on the wire. -/
theorem applyOp_request_id (env : Env) (s : State) (op : ClientOp) :
    (applyOp env s op).request_id = s.request_id + (opSent s op).length := by
  obtain ⟨rid, conn, av, si⟩ := s
  cases op with
  | connect => rfl
  | discover => cases conn <;> rfl
  | call n a =>
    cases conn with
    | false => rfl
    | true =>
      show (call_tool env ⟨rid, true, av, si⟩ n a).2.request_id = _
      rw [call_tool_connected env ⟨rid, true, av, si⟩ rfl n a]
      rfl
  | disconnect => rfl

/-- The ids an operation sends are consecutive, starting right above the
current counter. -/
theorem opSent_ids (s : State) (op : ClientOp) :
    (opSent s op).map (fun r => r.lookup "id") =
      (List.range' (s.request_id + 1) (opSent s op).length).map
        (fun i => some (.num (i : Int) 0)) := by
  obtain ⟨rid, conn, av, si⟩ := s
  cases op with
  | connect => rfl
  | discover => cases conn <;> rfl
  | call n a => cases conn <;> rfl
  | disconnect => rfl

/-- The ids placed on the wire by a whole session are consecutive from one
above the starting counter. -/
theorem trace_ids (env : Env) (ops : List ClientOp) :
    ∀ s : State,
      (trace env s ops).map (fun r => r.lookup "id") =
        (List.range' (s.request_id + 1) (trace env s ops).length).map
          (fun i => some (.num (i : Int) 0)) := by
  induction ops with
  | nil => intro s; rfl
  | cons op ops ih =>
    intro s
    show ((opSent s op ++ trace env (applyOp env s op) ops).map fun r => r.lookup "id") = _
    rw [List.map_append, opSent_ids, ih, ← List.map_append]
    congr 1
    rw [applyOp_request_id]
    rw [show s.request_id + (opSent s op).length + 1
          = s.request_id + 1 + (opSent s op).length from by omega]
    rw [List.range'_append_1]
    show _ = List.range' (s.request_id + 1)
      (opSent s op ++ trace env (applyOp env s op) ops).length
    rw [List.length_append]
    rw [Nat.add_comm (trace env (applyOp env s op) ops).length (opSent s op).length]

end MCPClient

/-! ## The claims -/

/-- C1: the spec says an unknown method yields a `-32601` error envelope, but
`handle_request` wraps the failure text in a SUCCESS envelope: the response
carries a `result` object `\x7b"error": "Unknown method: <m>"\x7d` and no
top-level `error` member.  The `-32601` envelope exists only in the client's
simulated transport. -/
theorem C1_unknown_method_yields_result_envelope (env : Env) (req : Json)
    (h1 : optIsStr (req.lookup "method") "initialize" = false)
    (h2 : optIsStr (req.lookup "method") "tools/list" = false)
    (h3 : optIsStr (req.lookup "method") "tools/call" = false)
    (h4 : optIsStr (req.lookup "method") "ping" = false) :
    MCPServer.handle_request env req =
      .obj [("jsonrpc", .str "2.0"), ("id", (req.lookup "id").getD .null),
            ("result", .obj [("error",
              .str ("Unknown method: " ++ pyShowOpt (req.lookup "method")))])] ∧
    (MCPServer.handle_request env req).lookup "error" = none ∧
    MCPClient.simulate_server_request env req =
      .obj [("jsonrpc", .str "2.0"), ("id", (req.lookup "id").getD .null),
            ("error", .obj [("code", .num (-32601) 0),
              ("message",
               .str ("Method not found: " ++ pyShowOpt (req.lookup "method")))])] := by
  refine ⟨?_, ?_, ?_⟩
  · simp only [MCPServer.handle_request]
    rw [h1, h2, h3, h4]
    rfl
  · simp only [MCPServer.handle_request]
    rw [h1, h2, h3, h4]
    rfl
  · simp only [MCPClient.simulate_server_request]
    rw [h1, h2, h3]
    rfl

/-- Witness for C1 at the concrete request `\x7b"method": "foo", "id": 1\x7d`. -/
theorem C1_unknown_method_yields_result_envelope_witness :
    MCPServer.handle_request testEnv (.obj [("method", .str "foo"), ("id", .num 1 0)]) =
      .obj [("jsonrpc", .str "2.0"), ("id", .num 1 0),
            ("result", .obj [("error", .str "Unknown method: foo")])] ∧
    (MCPServer.handle_request testEnv
        (.obj [("method", .str "foo"), ("id", .num 1 0)])).lookup "error" = none ∧
    MCPClient.simulate_server_request testEnv
        (.obj [("method", .str "foo"), ("id", .num 1 0)]) =
      .obj [("jsonrpc", .str "2.0"), ("id", .num 1 0),
            ("error", .obj [("code", .num (-32601) 0),
                            ("message", .str "Method not found: foo")])] :=
  C1_unknown_method_yields_result_envelope testEnv
    (.obj [("method", .str "foo"), ("id", .num 1 0)]) rfl rfl rfl rfl

/-- Counterexample to C1 as claimed: on method `"foo"` the server's response
has no top-level `error` member at all — the failure text sits inside a
success `result`. -/
theorem C1_unknown_method_counterexample :
    (MCPServer.handle_request testEnv
        (.obj [("method", .str "foo"), ("id", .num 1 0)])).lookup "error" = none ∧
    (MCPServer.handle_request testEnv
        (.obj [("method", .str "foo"), ("id", .num 1 0)])).lookup "result" =
      some (.obj [("error", .str "Unknown method: foo")]) :=
  ⟨rfl, rfl⟩

/-- C2: a `tools/call` whose processing fails is caught at the dispatcher
boundary and becomes a `-32603` error envelope carrying the failure text and
echoing the request id; an unregistered tool fails with
`"Tool not found: <name>"`, and `calculator.divide` raises
`"Cannot divide by zero"` exactly when `b = 0`. -/
theorem C2_tools_call_failure_error_envelope :
    (∀ (env : Env) (req : Json) (msg : String),
      optIsStr (req.lookup "method") "tools/call" = true →
      MCPServer.handleCallTool env (req.getD "params" (.obj [])) = .error msg →
      MCPServer.handle_request env req =
        .obj [("jsonrpc", .str "2.0"), ("id", (req.lookup "id").getD .null),
              ("error", .obj [("code", .num (-32603) 0), ("message", .str msg)])]) ∧
    (∀ (env : Env) (params : Json) (name : String),
      params.lookup "name" = some (.str name) →
      MCPServer.findTool name = none →
      MCPServer.handleCallTool env params = .error ("Tool not found: " ++ name)) ∧
    (∀ (a : ℚ) (now : String),
      CalculatorTool.divide a 0 now = .error "Cannot divide by zero") := by
  refine ⟨?_, ?_, ?_⟩
  · intro env req msg hm hc
    have hmethod := optIsStr_eq_some _ _ hm
    simp only [MCPServer.handle_request]
    rw [hmethod, hc]
    rfl
  · intro env params name hn hf
    simp only [MCPServer.handleCallTool]
    rw [hn]
    dsimp only
    rw [hf]
    rfl
  · intro a now
    unfold CalculatorTool.divide
    rw [if_pos rfl]

/-- Witness for C2: `calculator.divide` on `b = 0` produces the `-32603`
envelope, and an unregistered tool name fails with the claimed text. -/
theorem C2_tools_call_failure_error_envelope_witness :
    MCPServer.handle_request testEnv
      (.obj [("method", .str "tools/call"), ("id", .num 7 0),
             ("params", .obj [("name", .str "calculator.divide"),
                              ("arguments",
                               .obj [("a", .num 10 0), ("b", .num 0 0)])])]) =
      .obj [("jsonrpc", .str "2.0"), ("id", .num 7 0),
            ("error", .obj [("code", .num (-32603) 0),
                            ("message", .str "Cannot divide by zero")])] ∧
    MCPServer.handleCallTool testEnv
      (.obj [("name", .str "no.such.tool"), ("arguments", .obj [])]) =
      .error "Tool not found: no.such.tool" :=
  ⟨C2_tools_call_failure_error_envelope.1 testEnv
     (.obj [("method", .str "tools/call"), ("id", .num 7 0),
            ("params", .obj [("name", .str "calculator.divide"),
                             ("arguments",
                              .obj [("a", .num 10 0), ("b", .num 0 0)])])])
     "Cannot divide by zero" rfl rfl,
   C2_tools_call_failure_error_envelope.2.1 testEnv
     (.obj [("name", .str "no.such.tool"), ("arguments", .obj [])])
     "no.such.tool" rfl rfl⟩

/-- C3: the spec claims the connected client's
`call_tool("weather.get_weather", \x7b"city": "Paris"\x7d)` returns the
server handler's unknown-city default (temperature 20, note present).  In
fact the client's simulated transport answers with its own hardcoded reading
`\x7btemperature: 22, condition: "Sunny", humidity: 65\x7d` and no `note`;
only the server-side handler `WeatherTool.get_weather` produces the claimed
default. -/
theorem C3_paris_weather_from_client (env : Env) (s : MCPClient.State)
    (h : s.connected = true) :
    (MCPClient.call_tool env s "weather.get_weather"
        (.obj [("city", .str "Paris")])).1 =
      .obj [("city", .str "Paris"),
            ("weather", .obj [("temperature", .num 22 0), ("condition", .str "Sunny"),
                              ("humidity", .num 65 0)]),
            ("timestamp", .str env.now), ("source", .str "mock_data")] ∧
    ((MCPClient.call_tool env s "weather.get_weather"
        (.obj [("city", .str "Paris")])).1).lookup "note" = none ∧
    WeatherTool.get_weather "Paris" env.now =
      .obj [("city", .str "Paris"),
            ("weather", .obj [("temperature", .num 20 0), ("condition", .str "Unknown"),
                              ("humidity", .num 50 0)]),
            ("timestamp", .str env.now), ("source", .str "mock_data"),
            ("note", .str "City not found, returning default data")] := by
  refine ⟨?_, ?_, rfl⟩
  · rw [MCPClient.call_tool_connected env s h]
    rfl
  · rw [MCPClient.call_tool_connected env s h]
    rfl

/-- Witness for C3 on a concrete connected state. -/
theorem C3_paris_weather_from_client_witness :
    (MCPClient.call_tool testEnv ⟨1, true, [], .obj []⟩ "weather.get_weather"
        (.obj [("city", .str "Paris")])).1 =
      .obj [("city", .str "Paris"),
            ("weather", .obj [("temperature", .num 22 0), ("condition", .str "Sunny"),
                              ("humidity", .num 65 0)]),
            ("timestamp", .str "2024-01-01T00:00:00"), ("source", .str "mock_data")] ∧
    ((MCPClient.call_tool testEnv ⟨1, true, [], .obj []⟩ "weather.get_weather"
        (.obj [("city", .str "Paris")])).1).lookup "note" = none ∧
    WeatherTool.get_weather "Paris" "2024-01-01T00:00:00" =
      .obj [("city", .str "Paris"),
            ("weather", .obj [("temperature", .num 20 0), ("condition", .str "Unknown"),
                              ("humidity", .num 50 0)]),
            ("timestamp", .str "2024-01-01T00:00:00"), ("source", .str "mock_data"),
            ("note", .str "City not found, returning default data")] :=
  C3_paris_weather_from_client testEnv ⟨1, true, [], .obj []⟩ rfl

/-- Counterexample to C3 as claimed: the mapping the connected client gets
for Paris has no `note` member, and its `weather` reading is the hardcoded
22/Sunny/65, not the claimed 20/Unknown/50. -/
theorem C3_paris_weather_counterexample :
    ((MCPClient.call_tool testEnv ⟨1, true, [], .obj []⟩ "weather.get_weather"
        (.obj [("city", .str "Paris")])).1).lookup "note" = none ∧
    ((MCPClient.call_tool testEnv ⟨1, true, [], .obj []⟩ "weather.get_weather"
        (.obj [("city", .str "Paris")])).1).lookup "weather" =
      some (.obj [("temperature", .num 22 0), ("condition", .str "Sunny"),
                  ("humidity", .num 65 0)]) := by
  constructor <;>
    rw [MCPClient.call_tool_connected testEnv ⟨1, true, [], .obj []⟩ rfl] <;> rfl

/-- C4: the calculator's `result` field is exactly `a + b`, `a - b`, `a * b`;
`divide` fails with the domain error precisely when `b = 0` and otherwise
returns `a / b`. -/
theorem C4_calculator_arithmetic (a b : ℚ) (now : String) :
    (CalculatorTool.add a b now).result = a + b ∧
    (CalculatorTool.subtract a b now).result = a - b ∧
    (CalculatorTool.multiply a b now).result = a * b ∧
    (b = 0 → CalculatorTool.divide a b now = .error "Cannot divide by zero") ∧
    (b ≠ 0 → ∃ r : CalcResult,
      CalculatorTool.divide a b now = .ok r ∧ r.result = a / b) := by
  refine ⟨rfl, rfl, rfl, ?_, ?_⟩
  · intro hb
    unfold CalculatorTool.divide
    rw [if_pos hb]
  · intro hb
    refine ⟨⟨"division", (a, b), a / b, now⟩, ?_, rfl⟩
    unfold CalculatorTool.divide
    rw [if_neg hb]

/-- C5: a handler result of any registered tool survives the wire: the
dispatcher serializes it into the content block's `text` with
`json.dumps(·, indent=2)` and the client's `json.loads` decodes that text
back to an equal mapping. -/
theorem C5_result_text_roundtrip (env : Env) (t : ToolEntry)
    (ht : t ∈ MCPServer.tools) (args m : Json) (h : t.run env args = .ok m) :
    MCPServer.handleCallTool env
        (.obj [("name", .str t.name), ("arguments", args)]) =
      .ok (.obj [("content",
            .arr [.obj [("type", .str "text"), ("text", .str (dumps m))]])]) ∧
    loads (dumps m) = some m := by
  refine ⟨?_, loads_dumps m⟩
  have hf : MCPServer.findTool t.name = some t := by
    fin_cases ht <;> rfl
  rw [handleCallTool_found env t.name t args hf, h]
  rfl

/-- Witness for C5 on the registered `system.echo` tool and a concrete
message. -/
theorem C5_result_text_roundtrip_witness :
    MCPServer.handleCallTool testEnv
        (.obj [("name", .str "system.echo"),
               ("arguments", .obj [("message", .str "hi")])]) =
      .ok (.obj [("content",
            .arr [.obj [("type", .str "text"),
                        ("text", .str (dumps (.obj [("message", .str "hi"),
                          ("timestamp", .str "2024-01-01T00:00:00"),
                          ("status", .str "echoed")])))]])]) ∧
    loads (dumps (Json.obj [("message", .str "hi"),
        ("timestamp", .str "2024-01-01T00:00:00"),
        ("status", .str "echoed")])) =
      some (.obj [("message", .str "hi"),
        ("timestamp", .str "2024-01-01T00:00:00"),
        ("status", .str "echoed")]) :=
  C5_result_text_roundtrip testEnv
    ⟨"system.echo", "Echo a message back", MCPServer.echoSchema, MCPServer.runEcho⟩
    (by repeat first | exact List.Mem.head _ | apply List.Mem.tail)
    (.obj [("message", .str "hi")])
    (.obj [("message", .str "hi"), ("timestamp", .str "2024-01-01T00:00:00"),
           ("status", .str "echoed")])
    rfl

/-- C6: across any sequence of client operations in one session, the request
ids placed in the issued envelopes are exactly 1, 2, 3, …: they start at 1,
increase strictly, and no id is ever reused. -/
theorem C6_request_ids_consecutive (env : Env) (ops : List MCPClient.ClientOp) :
    (MCPClient.trace env MCPClient.initState ops).map (fun r => r.lookup "id") =
      (List.range' 1 (MCPClient.trace env MCPClient.initState ops).length).map
        (fun i => some (.num (i : Int) 0)) :=
  MCPClient.trace_ids env ops MCPClient.initState

/-- C7: when the session is not connected, `call_tool` returns an empty
mapping and `discover_tools` an empty sequence, for every name and
arguments, leaving the state untouched (both are total, so nothing is
raised). -/
theorem C7_disconnected_empty_results (env : Env) (s : MCPClient.State)
    (h : s.connected = false) (name : String) (args : Json) :
    MCPClient.call_tool env s name args = (.obj [], s) ∧
    MCPClient.discover_tools env s = ([], s) := by
  obtain ⟨rid, conn, av, si⟩ := s
  replace h : conn = false := h
  subst h
  exact ⟨rfl, rfl⟩

/-- Witness for C7 on the freshly initialized (disconnected) state. -/
theorem C7_disconnected_empty_results_witness :
    MCPClient.call_tool testEnv MCPClient.initState "weather.get_weather"
        (.obj [("city", .str "Paris")]) = (.obj [], MCPClient.initState) ∧
    MCPClient.discover_tools testEnv MCPClient.initState = ([], MCPClient.initState) :=
  C7_disconnected_empty_results testEnv MCPClient.initState rfl
    "weather.get_weather" (.obj [("city", .str "Paris")])

/-- C8: `file.read_file` on a path whose open raises `FileNotFoundError`
returns the error-shaped mapping with `status: "error"` and
`error: "File not found"` (plus filepath and timestamp); the handler is
total, so the exception never propagates. -/
theorem C8_read_file_missing_error (fs : String → OpenResult)
    (now filepath : String) (h : fs filepath = .notFound) :
    FileTool.read_file fs now filepath =
      .obj [("filepath", .str filepath), ("error", .str "File not found"),
            ("timestamp", .str now), ("status", .str "error")] ∧
    (FileTool.read_file fs now filepath).lookup "status" = some (.str "error") ∧
    (FileTool.read_file fs now filepath).lookup "error" =
      some (.str "File not found") := by
  have he : FileTool.read_file fs now filepath =
      .obj [("filepath", .str filepath), ("error", .str "File not found"),
            ("timestamp", .str now), ("status", .str "error")] := by
    unfold FileTool.read_file
    rw [h]
  exact ⟨he, by rw [he]; rfl, by rw [he]; rfl⟩

/-- Witness for C8 on a filesystem with no files. -/
theorem C8_read_file_missing_error_witness :
    FileTool.read_file (fun _ => OpenResult.notFound) "2024-01-01T00:00:00"
        "/missing.txt" =
      .obj [("filepath", .str "/missing.txt"), ("error", .str "File not found"),
            ("timestamp", .str "2024-01-01T00:00:00"), ("status", .str "error")] ∧
    (FileTool.read_file (fun _ => OpenResult.notFound) "2024-01-01T00:00:00"
        "/missing.txt").lookup "status" = some (.str "error") ∧
    (FileTool.read_file (fun _ => OpenResult.notFound) "2024-01-01T00:00:00"
        "/missing.txt").lookup "error" = some (.str "File not found") :=
  C8_read_file_missing_error (fun _ => OpenResult.notFound) "2024-01-01T00:00:00"
    "/missing.txt" rfl

/-- C9: the `tools/list` result is exactly one `\x7bname, description,
inputSchema\x7d` descriptor per registry entry, in registration order, and
the registered names have no duplicates. -/
theorem C9_tools_list_registry_order :
    MCPServer.handleListTools (.obj []) =
      .obj [("tools", .arr (MCPServer.tools.map MCPServer.toolDescriptor))] ∧
    MCPServer.tools.map ToolEntry.name =
      ["calculator.add", "calculator.subtract", "calculator.multiply",
       "calculator.divide", "weather.get_weather", "file.read_file",
       "file.write_file", "file.list_files", "system.get_system_info",
       "system.echo"] ∧
    (MCPServer.tools.map ToolEntry.name).Nodup ∧
    (MCPServer.tools.map MCPServer.toolDescriptor).map (fun d => d.lookup "name") =
      MCPServer.tools.map (fun t => some (.str t.name)) := by
  refine ⟨rfl, rfl, ?_, rfl⟩
  rw [show MCPServer.tools.map ToolEntry.name =
      ["calculator.add", "calculator.subtract", "calculator.multiply",
       "calculator.divide", "weather.get_weather", "file.read_file",
       "file.write_file", "file.list_files", "system.get_system_info",
       "system.echo"] from rfl]
  decide

/-- C10: on a connected session, `discover_tools` answers from the client's
hardcoded three-descriptor list — `calculator.add`, `weather.get_weather`,
`system.echo`, in that order — even though the server registry holds ten
tools. -/
theorem C10_discover_tools_hardcoded_three (env : Env) (s : MCPClient.State)
    (h : s.connected = true) :
    (MCPClient.discover_tools env s).1 = MCPClient.simTools ∧
    MCPClient.simTools.map (fun d => d.lookup "name") =
      [some (.str "calculator.add"), some (.str "weather.get_weather"),
       some (.str "system.echo")] ∧
    MCPClient.simTools.length = 3 ∧
    MCPServer.tools.length = 10 := by
  refine ⟨?_, rfl, rfl, rfl⟩
  rw [MCPClient.discover_tools_connected env s h]

/-- Witness for C10 on a concrete connected state. -/
theorem C10_discover_tools_hardcoded_three_witness :
    (MCPClient.discover_tools testEnv ⟨0, true, [], .obj []⟩).1 =
      MCPClient.simTools ∧
    MCPClient.simTools.map (fun d => d.lookup "name") =
      [some (.str "calculator.add"), some (.str "weather.get_weather"),
       some (.str "system.echo")] ∧
    MCPClient.simTools.length = 3 ∧
    MCPServer.tools.length = 10 :=
  C10_discover_tools_hardcoded_three testEnv ⟨0, true, [], .obj []⟩ rfl
